import Mathlib

/-!
# PUTSLAM features map: a shallow embedding of `src/src/Map/featuresMap.cpp`

The map keeps the camera trajectory, the odometry increments, the landmark
vector (`featuresMapFrontend`), the staging buffer (`bufferMapFrontend`) and
the calls issued to the pose graph.  Every member function of `FeaturesMap`
that changes this state is a function on the record `FeaturesMap` below.

Modelling conventions.
* Scalars (`float_type`) are integers: sums and products are exact, and every
  small integer is also a value of the source's scalar type.
* A vector is a `List`; an element access outside the vector (undefined in the
  source) makes the embedded function return `none`.
* `try_lock` is an explicit Boolean argument: `true` when the lock is acquired.
* The pose graph is an external solver; the embedding records the vertices and
  edges handed to it.
* `int` to `unsigned int` conversions are reductions modulo `2 ^ 32`.
* Ids are natural numbers.  The counter `featureIdNo` is declared in a header
  outside `src`; it is incremented without a reduction modulo a word size.
-/

namespace PUTSLAM

/-! ## Geometry -/

/-- Translation part of a transform, the type `Vec3` of the source. -/
structure Vec3 where
  x : Int
  y : Int
  z : Int
deriving DecidableEq, Repr

/-- A 3x3 matrix (`Mat33`), used for the information matrix of an observation. -/
structure Mat33 where
  m00 : Int
  m01 : Int
  m02 : Int
  m10 : Int
  m11 : Int
  m12 : Int
  m20 : Int
  m21 : Int
  m22 : Int
deriving DecidableEq, Repr

/-- The matrix `Mat33::Identity()`. -/
def Mat33.Identity : Mat33 :=
  { m00 := 1, m01 := 0, m02 := 0,
    m10 := 0, m11 := 1, m12 := 0,
    m20 := 0, m21 := 0, m22 := 1 }

/-- A 6x6 information matrix (`Mat66`); the source only ever builds the identity,
so the matrix is kept by its rows. -/
structure Mat66 where
  rows : List (List Int)
deriving DecidableEq, Repr

/-- The matrix `Mat66::Identity()`. -/
def Mat66.Identity : Mat66 :=
  { rows := (List.range 6).map (fun i => (List.range 6).map (fun j => if i = j then 1 else 0)) }

/-- An affine transform (`Mat34`): entry `mij` is row `i`, column `j`; column 3 is
the translation.  The implicit fourth row is `0 0 0 1`. -/
structure Mat34 where
  m00 : Int
  m01 : Int
  m02 : Int
  m03 : Int
  m10 : Int
  m11 : Int
  m12 : Int
  m13 : Int
  m20 : Int
  m21 : Int
  m22 : Int
  m23 : Int
deriving DecidableEq, Repr

/-- The transform `Mat34::Identity()`. -/
def Mat34.Identity : Mat34 :=
  { m00 := 1, m01 := 0, m02 := 0, m03 := 0,
    m10 := 0, m11 := 1, m12 := 0, m13 := 0,
    m20 := 0, m21 := 0, m22 := 1, m23 := 0 }

/-- Product of two transforms, `a.matrix() * b.matrix()` with the implicit last
row `0 0 0 1`. -/
def Mat34.mul (a b : Mat34) : Mat34 :=
  { m00 := a.m00 * b.m00 + a.m01 * b.m10 + a.m02 * b.m20,
    m01 := a.m00 * b.m01 + a.m01 * b.m11 + a.m02 * b.m21,
    m02 := a.m00 * b.m02 + a.m01 * b.m12 + a.m02 * b.m22,
    m03 := a.m00 * b.m03 + a.m01 * b.m13 + a.m02 * b.m23 + a.m03,
    m10 := a.m10 * b.m00 + a.m11 * b.m10 + a.m12 * b.m20,
    m11 := a.m10 * b.m01 + a.m11 * b.m11 + a.m12 * b.m21,
    m12 := a.m10 * b.m02 + a.m11 * b.m12 + a.m12 * b.m22,
    m13 := a.m10 * b.m03 + a.m11 * b.m13 + a.m12 * b.m23 + a.m13,
    m20 := a.m20 * b.m00 + a.m21 * b.m10 + a.m22 * b.m20,
    m21 := a.m20 * b.m01 + a.m21 * b.m11 + a.m22 * b.m21,
    m22 := a.m20 * b.m02 + a.m21 * b.m12 + a.m22 * b.m22,
    m23 := a.m20 * b.m03 + a.m21 * b.m13 + a.m22 * b.m23 + a.m23 }

instance : Mul Mat34 := ⟨Mat34.mul⟩

/-- The transform built from a translation, `Mat34(Vec3)`: identity rotation. -/
def Mat34.ofVec3 (p : Vec3) : Mat34 :=
  { m00 := 1, m01 := 0, m02 := 0, m03 := p.x,
    m10 := 0, m11 := 1, m12 := 0, m13 := p.y,
    m20 := 0, m21 := 0, m22 := 1, m23 := p.z }

/-- The translation column, `translation()`. -/
def Mat34.translation (a : Mat34) : Vec3 :=
  { x := a.m03, y := a.m13, z := a.m23 }

/-- A pure translation `translate(x, y, z)`. -/
def translate (x y z : Int) : Mat34 :=
  Mat34.ofVec3 { x := x, y := y, z := z }

/-! ## Data model -/

/-- An image or a descriptor matrix (`cv::Mat`): dimensions and elements. -/
structure CvMat where
  rows : Nat
  cols : Nat
  data : List Int
deriving DecidableEq, Repr

/-- A descriptor together with the pose it was taken from. -/
structure ExtendedDescriptor where
  poseId : Nat
  descriptor : CvMat
deriving DecidableEq, Repr

/-- A feature measured in the camera frame (`RGBDFeature`). -/
structure RGBDFeature where
  u : Nat
  v : Nat
  position : Vec3
  descriptors : List ExtendedDescriptor
deriving DecidableEq, Repr

/-- A landmark of the map (`MapFeature`). -/
structure MapFeature where
  id : Nat
  u : Nat
  v : Nat
  position : Vec3
  posesIds : List Nat
  descriptors : List ExtendedDescriptor
deriving DecidableEq, Repr

/-- A camera pose of the trajectory (`VertexSE3`). -/
structure VertexSE3 where
  vertexId : Nat
  pose : Mat34
  timestamp : Int
deriving DecidableEq, Repr

/-- A landmark vertex of the graph (`Vertex3D`). -/
structure Vertex3D where
  vertexId : Nat
  keypoint : Vec3
deriving DecidableEq, Repr

/-- An observation of a landmark from a pose (`Edge3D`). -/
structure Edge3D where
  trans : Vec3
  info : Mat33
  fromVertexId : Nat
  toVertexId : Nat
deriving DecidableEq, Repr

/-- A constraint between two poses (`EdgeSE3`). -/
structure EdgeSE3 where
  trans : Mat34
  info : Mat66
  fromVertexId : Int
  toVertexId : Int
deriving DecidableEq, Repr

/-- The calls issued to the pose graph, in order, one list per kind of call. -/
structure PoseGraph where
  vertexPoses : List VertexSE3
  vertexFeatures : List Vertex3D
  edges3D : List Edge3D
  edgesSE3 : List EdgeSE3
deriving DecidableEq, Repr

/-- The call `addVertexPose`. -/
def PoseGraph.addVertexPose (g : PoseGraph) (v : VertexSE3) : PoseGraph :=
  { g with vertexPoses := g.vertexPoses ++ [v] }

/-- The call `addVertexFeature`. -/
def PoseGraph.addVertexFeature (g : PoseGraph) (v : Vertex3D) : PoseGraph :=
  { g with vertexFeatures := g.vertexFeatures ++ [v] }

/-- The call `addEdge3D`. -/
def PoseGraph.addEdge3D (g : PoseGraph) (e : Edge3D) : PoseGraph :=
  { g with edges3D := g.edges3D ++ [e] }

/-- The call `addEdgeSE3`. -/
def PoseGraph.addEdgeSE3 (g : PoseGraph) (e : EdgeSE3) : PoseGraph :=
  { g with edgesSE3 := g.edgesSE3 ++ [e] }

/-- The staging buffer `MapModifier`. -/
structure MapModifier where
  features2add : List MapFeature
  features2update : List MapFeature
deriving DecidableEq, Repr

/-- Modelled from the spec: `MapModifier::addFeatures()`, declared in a header
outside the sources at hand, reports whether `features2add` is non-empty. -/
def MapModifier.addFeatures (m : MapModifier) : Bool :=
  !m.features2add.isEmpty

/-- Modelled from the spec: `MapModifier::updateFeatures()`, declared in a header
outside the sources at hand, reports whether `features2update` is non-empty. -/
def MapModifier.updateFeatures (m : MapModifier) : Bool :=
  !m.features2update.isEmpty

/-- The part of the map configuration read by `featuresMap.cpp`. -/
structure Config where
  useUncertainty : Bool
  edges3DPrunningThreshold : Int
  weakFeatureThr : Nat
  fixVertices : Bool
deriving DecidableEq, Repr

/-- The depth sensor model as far as the map uses it.  Its implementation is
outside the sources at hand, so both functions are parameters. -/
structure DepthSensorModel where
  informationMatrixFromImageCoordinates : Nat → Nat → Int → Mat33
  inverseModel : Int → Int → Int → Vec3

/-- The state of a `FeaturesMap` object. -/
structure FeaturesMap where
  config : Config
  featureIdNo : Nat
  lastOptimizedPose : Nat
  featuresMapFrontend : List MapFeature
  bufferMapFrontend : MapModifier
  camTrajectory : List VertexSE3
  odoMeasurements : List Mat34
  imageSeq : List CvMat
  depthSeq : List CvMat
  poseGraph : PoseGraph
  emptyMap : Bool
deriving DecidableEq, Repr

/-- Conversion of an `int` to `unsigned int`. -/
def toUnsigned (i : Int) : Nat :=
  (i % 2 ^ 32).toNat

/-- Element access `v[i]` with a signed index: `none` outside the vector. -/
def at? {α : Type} (v : List α) (i : Int) : Option α :=
  if i < 0 then none else v[i.toNat]?

/-! ## Construction -/

/-- The constructor `FeaturesMap(configMap, sensorConfig)`: `featureIdNo` starts at
`FATURES_START_ID`, `lastOptimizedPose` at 0, the map is empty. -/
def FeaturesMap.new (FATURES_START_ID : Nat) (config : Config) : FeaturesMap :=
  { config := config,
    featureIdNo := FATURES_START_ID,
    lastOptimizedPose := 0,
    featuresMapFrontend := [],
    bufferMapFrontend := { features2add := [], features2update := [] },
    camTrajectory := [],
    odoMeasurements := [],
    imageSeq := [],
    depthSeq := [],
    poseGraph := { vertexPoses := [], vertexFeatures := [], edges3D := [], edgesSE3 := [] },
    emptyMap := true }

/-! ## Reconciliation of the staging buffer -/

/-- The function `FeaturesMap::updateFeature`: every landmark with the id of
`newFeature` takes its position. -/
def updateFeature (featuresMap : List MapFeature) (newFeature : MapFeature) :
    List MapFeature :=
  featuresMap.map (fun it =>
    if it.id = newFeature.id then { it with position := newFeature.position } else it)

/-- The function `FeaturesMap::updateMap` on the two objects it receives by
reference; `tryLock` is the result of `mutex.try_lock()`. -/
def updateMap (tryLock : Bool) (modifier : MapModifier) (featuresMap : List MapFeature) :
    MapModifier × List MapFeature :=
  if tryLock then
    let (modifier1, featuresMap1) :=
      if modifier.addFeatures then
        ({ modifier with features2add := [] }, featuresMap ++ modifier.features2add)
      else (modifier, featuresMap)
    if modifier1.updateFeatures then
      ({ modifier1 with features2update := [] },
        modifier1.features2update.foldl updateFeature featuresMap1)
    else (modifier1, featuresMap1)
  else (modifier, featuresMap)

/-- The call `updateMap(bufferMapFrontend, featuresMapFrontend, mtxMapFrontend)`. -/
def FeaturesMap.updateMap (s : FeaturesMap) (tryLock : Bool) : FeaturesMap :=
  let r := PUTSLAM.updateMap tryLock s.bufferMapFrontend s.featuresMapFrontend
  { s with bufferMapFrontend := r.1, featuresMapFrontend := r.2 }

/-! ## Ingestion -/

/-- One iteration of the loop of `FeaturesMap::addFeatures`. -/
def addFeaturesBody (sensorModel : DepthSensorModel) (cameraPose : Mat34) (poseId : Int)
    (camTrajSize : Nat) (s : FeaturesMap) (it : RGBDFeature) : FeaturesMap :=
  let featurePos : Mat34 := cameraPose * Mat34.ofVec3 it.position
  let poseIds : List Nat := [toUnsigned poseId]
  let featurePositionInGlobal : Vec3 := featurePos.translation
  let buffer : MapModifier :=
    { s.bufferMapFrontend with
      features2add := s.bufferMapFrontend.features2add ++
        [{ id := s.featureIdNo, u := it.u, v := it.v, position := featurePositionInGlobal,
           posesIds := poseIds, descriptors := it.descriptors }] }
  let info : Mat33 :=
    if s.config.useUncertainty then
      sensorModel.informationMatrixFromImageCoordinates it.u it.v it.position.z
    else Mat33.Identity
  let e : Edge3D :=
    { trans := it.position, info := info, fromVertexId := camTrajSize - 1,
      toVertexId := s.featureIdNo }
  let g := s.poseGraph.addVertexFeature
    { vertexId := s.featureIdNo,
      keypoint := { x := featurePos.m03, y := featurePos.m13, z := featurePos.m23 } }
  { s with bufferMapFrontend := buffer, poseGraph := g.addEdge3D e,
           featureIdNo := s.featureIdNo + 1 }

/-- The function `FeaturesMap::addFeatures`.  The pose is read at `poseId`, or at the
back of the trajectory for a negative `poseId`; `none` when that read is outside
the trajectory. -/
def FeaturesMap.addFeatures (sensorModel : DepthSensorModel) (s : FeaturesMap)
    (features : List RGBDFeature) (poseId : Int) (tryLock : Bool) : Option FeaturesMap :=
  let camTrajSize := s.camTrajectory.length
  match (if 0 ≤ poseId then at? s.camTrajectory poseId else s.camTrajectory.getLast?) with
  | none => none
  | some camVertex =>
    let s1 := features.foldl (addFeaturesBody sensorModel camVertex.pose poseId camTrajSize) s
    let s2 := s1.updateMap tryLock
    some { s2 with emptyMap := false }

/-- The function `FeaturesMap::addNewPose`: the new state and the returned pose id. -/
def FeaturesMap.addNewPose (s : FeaturesMap) (cameraPoseChange : Mat34) (timestamp : Int)
    (image depthImage : CvMat) : FeaturesMap × Nat :=
  let trajSize := s.camTrajectory.length
  let s0 := { s with imageSeq := s.imageSeq ++ [image], depthSeq := s.depthSeq ++ [depthImage] }
  match s.camTrajectory.getLast? with
  | none =>
    let camPose : VertexSE3 :=
      { vertexId := trajSize, pose := cameraPoseChange, timestamp := timestamp }
    ({ s0 with odoMeasurements := s.odoMeasurements ++ [Mat34.Identity],
               camTrajectory := s.camTrajectory ++ [camPose],
               poseGraph := s.poseGraph.addVertexPose camPose }, trajSize)
  | some back =>
    let camPose : VertexSE3 :=
      { vertexId := trajSize, pose := back.pose * cameraPoseChange, timestamp := timestamp }
    ({ s0 with odoMeasurements := s.odoMeasurements ++ [cameraPoseChange],
               camTrajectory := s.camTrajectory ++ [camPose],
               poseGraph := s.poseGraph.addVertexPose camPose }, trajSize)

/-- Index `it->id - FATURES_START_ID` into the landmark vector.  The subtraction is
unsigned: an id below `FATURES_START_ID` wraps to an index beyond the vector. -/
def featureIndex (FATURES_START_ID : Nat) (id : Nat) : Option Nat :=
  if id < FATURES_START_ID then none else some (id - FATURES_START_ID)

/-- One iteration of the loop of `FeaturesMap::addMeasurements`; `none` when the
landmark vector is accessed outside its bounds. -/
def addMeasurementsBody (FATURES_START_ID : Nat) (sensorModel : DepthSensorModel)
    (_poseId : Nat) (s : FeaturesMap) (it : MapFeature) : Option FeaturesMap :=
  let info : Mat33 :=
    if s.config.useUncertainty then
      sensorModel.informationMatrixFromImageCoordinates it.u it.v it.position.z
    else Mat33.Identity
  match featureIndex FATURES_START_ID it.id with
  | none => none
  | some k =>
    match s.featuresMapFrontend[k]? with
    | none => none
    | some f =>
      let e : Edge3D :=
        { trans := it.position, info := info, fromVertexId := _poseId, toVertexId := it.id }
      some { s with
        featuresMapFrontend :=
          s.featuresMapFrontend.set k { f with posesIds := f.posesIds ++ [_poseId] },
        poseGraph := s.poseGraph.addEdge3D e }

/-- The function `FeaturesMap::addMeasurements`. -/
def FeaturesMap.addMeasurements (FATURES_START_ID : Nat) (sensorModel : DepthSensorModel)
    (s : FeaturesMap) (features : List MapFeature) (poseId : Int) : Option FeaturesMap :=
  let camTrajSize : Int := s.camTrajectory.length
  let _poseId : Nat := toUnsigned (if 0 ≤ poseId then poseId else camTrajSize - 1)
  features.foldlM (addMeasurementsBody FATURES_START_ID sensorModel _poseId) s

/-- The function `FeaturesMap::addMeasurement`: an edge between two poses with the
identity as information matrix. -/
def FeaturesMap.addMeasurement (s : FeaturesMap) (poseFrom poseTo : Int)
    (transformation : Mat34) : FeaturesMap :=
  let e : EdgeSE3 :=
    { trans := transformation, info := Mat66.Identity,
      fromVertexId := poseFrom, toVertexId := poseTo }
  { s with poseGraph := s.poseGraph.addEdgeSE3 e }

/-! ## Queries -/

/-- The function `FeaturesMap::getAllFeatures`: the copy of the landmark vector that
is returned, and the state after the attempt to drain the buffer. -/
def FeaturesMap.getAllFeatures (s : FeaturesMap) (tryLock : Bool) :
    List MapFeature × FeaturesMap :=
  (s.featuresMapFrontend, s.updateMap tryLock)

/-- The function `FeaturesMap::getFeaturePosition`; `none` when the landmark vector
is accessed outside its bounds. -/
def FeaturesMap.getFeaturePosition (FATURES_START_ID : Nat) (s : FeaturesMap) (id : Nat) :
    Option Vec3 :=
  match featureIndex FATURES_START_ID id with
  | none => none
  | some k => (s.featuresMapFrontend[k]?).map (fun f => f.position)

/-- The function `FeaturesMap::getSensorPose`; a negative `poseId` selects the last
pose.  `none` when the trajectory is accessed outside its bounds. -/
def FeaturesMap.getSensorPose (s : FeaturesMap) (poseId : Int) : Option Mat34 :=
  let poseId1 : Int := if poseId < 0 then (s.camTrajectory.length : Int) - 1 else poseId
  if poseId1 < (s.lastOptimizedPose : Int) then
    (at? s.camTrajectory poseId1).map (fun v => v.pose)
  else
    match s.camTrajectory[s.lastOptimizedPose]? with
    | none => none
    | some v =>
      some ((s.odoMeasurements.drop (s.lastOptimizedPose + 1)).foldl (fun pose odo => pose * odo)
        v.pose)

/-! ## Optimizer -/

/-- Lines 290 to 296 of `FeaturesMap::optimize`: the snapshot of optimized landmarks
is inserted at the beginning of `features2update`. -/
def FeaturesMap.stageOptimizedFeatures (s : FeaturesMap) (optimizedFeatures : List MapFeature) :
    FeaturesMap :=
  { s with bufferMapFrontend :=
      { s.bufferMapFrontend with
        features2update := optimizedFeatures ++ s.bufferMapFrontend.features2update } }

/-- The function `FeaturesMap::updatePose`. -/
def FeaturesMap.updatePose (s : FeaturesMap) (newPose : VertexSE3) : FeaturesMap :=
  { s with
    lastOptimizedPose :=
      if newPose.vertexId > s.lastOptimizedPose then newPose.vertexId else s.lastOptimizedPose,
    camTrajectory := s.camTrajectory.map (fun it =>
      if it.vertexId = newPose.vertexId then { it with pose := newPose.pose } else it) }

/-- The function `FeaturesMap::updateCamTrajectory`. -/
def FeaturesMap.updateCamTrajectory (s : FeaturesMap) (poses2update : List VertexSE3) :
    FeaturesMap :=
  poses2update.foldl FeaturesMap.updatePose s

/-- One pass of the loop of `FeaturesMap::optimize` as seen by the map: the solver
returns the snapshots `optimizedFeatures` and `optimizedPoses`. -/
def FeaturesMap.optimizePass (s : FeaturesMap) (optimizedFeatures : List MapFeature)
    (tryLock : Bool) (optimizedPoses : List VertexSE3) : FeaturesMap :=
  ((s.stageOptimizedFeatures optimizedFeatures).updateMap tryLock).updateCamTrajectory
    optimizedPoses

/-! ## Visibility and nearest frame -/

/-- Conversion of an `unsigned int` to `int`. -/
def toSigned (n : Nat) : Int :=
  if n % 2 ^ 32 < 2 ^ 31 then ((n % 2 ^ 32 : Nat) : Int) else ((n % 2 ^ 32 : Nat) : Int) - 2 ^ 32

/-- Determinant of the linear part of a transform. -/
def Mat34.det (a : Mat34) : Int :=
  a.m00 * (a.m11 * a.m22 - a.m12 * a.m21) - a.m01 * (a.m10 * a.m22 - a.m12 * a.m20) +
    a.m02 * (a.m10 * a.m21 - a.m11 * a.m20)

/-- The inverse transform, `inverse()`: the linear part is the adjugate divided by the
determinant, the translation is the negated image of the translation.  With integer
scalars the quotient is exact when the determinant is 1 or -1, as for a rotation
with integer entries. -/
def Mat34.inverse (a : Mat34) : Mat34 :=
  let d := a.det
  let i00 := (a.m11 * a.m22 - a.m12 * a.m21) / d
  let i01 := (a.m02 * a.m21 - a.m01 * a.m22) / d
  let i02 := (a.m01 * a.m12 - a.m02 * a.m11) / d
  let i10 := (a.m12 * a.m20 - a.m10 * a.m22) / d
  let i11 := (a.m00 * a.m22 - a.m02 * a.m20) / d
  let i12 := (a.m02 * a.m10 - a.m00 * a.m12) / d
  let i20 := (a.m10 * a.m21 - a.m11 * a.m20) / d
  let i21 := (a.m01 * a.m20 - a.m00 * a.m21) / d
  let i22 := (a.m00 * a.m11 - a.m01 * a.m10) / d
  { m00 := i00, m01 := i01, m02 := i02, m03 := -(i00 * a.m03 + i01 * a.m13 + i02 * a.m23),
    m10 := i10, m11 := i11, m12 := i12, m13 := -(i10 * a.m03 + i11 * a.m13 + i12 * a.m23),
    m20 := i20, m21 := i21, m22 := i22, m23 := -(i20 * a.m03 + i21 * a.m13 + i22 * a.m23) }

/-- One iteration of the loop of `FeaturesMap::getVisibleFeatures`: the landmark is
pushed to `visibleFeatures` when the first component of its projection is not -1. -/
def getVisibleFeaturesBody (sensorModel : DepthSensorModel) (cameraPose : Mat34)
    (visibleFeatures : List MapFeature) (it : MapFeature) : List MapFeature :=
  let featurePos : Mat34 := Mat34.ofVec3 it.position
  let featureCam : Mat34 := cameraPose.inverse * featurePos
  let pointCam : Vec3 := sensorModel.inverseModel featureCam.m03 featureCam.m13 featureCam.m23
  if pointCam.x ≠ -1 then visibleFeatures ++ [it] else visibleFeatures

/-- The function `FeaturesMap::getVisibleFeatures`: the returned vector, and the state
after the attempt to drain the buffer. -/
def FeaturesMap.getVisibleFeatures (sensorModel : DepthSensorModel) (s : FeaturesMap)
    (cameraPose : Mat34) (tryLock : Bool) : List MapFeature × FeaturesMap :=
  (s.featuresMapFrontend.foldl (getVisibleFeaturesBody sensorModel cameraPose) [],
    s.updateMap tryLock)

/-- The third column of the linear part, the viewing direction read by
`findNearestFrame` as the entries `(0,2)`, `(1,2)`, `(2,2)`. -/
def Mat34.viewAxis (a : Mat34) : Vec3 :=
  { x := a.m02, y := a.m12, z := a.m22 }

/-- The dot product of two vectors. -/
def Vec3.dot (a b : Vec3) : Int :=
  a.x * b.x + a.y * b.y + a.z * b.z

/-- One iteration of the inner loop of `FeaturesMap::findNearestFrame` for the index
`j` and the pose id `posesIds[j]`: the pair is `(maxProduct, idMax)`, where `idMax`
is `none` while the variable has not been assigned. -/
def findNearestFrameInner (s : FeaturesMap) (featureGlob : Mat34) (featureViewCurr : Vec3)
    (acc : Option (Int × Option Int)) (entry : Nat × Nat) : Option (Int × Option Int) :=
  match acc with
  | none => none
  | some (maxProduct, idMax) =>
    match s.getSensorPose (toSigned entry.2) with
    | none => none
    | some camPose =>
      let featureInCam : Mat34 := featureGlob.inverse * camPose
      let featureView : Vec3 := featureInCam.viewAxis
      let dotProduct : Int := featureView.dot featureViewCurr
      if dotProduct > maxProduct then some (dotProduct, some (entry.1 : Int))
      else some (maxProduct, idMax)

/-- The body of the outer loop of `FeaturesMap::findNearestFrame`: the value stored in
`imageIds[i]` for one query landmark; `none` when a pose is read outside the
trajectory or `idMax` is read before it was assigned. -/
def findNearestFrameBody (s : FeaturesMap) (currentCameraPose : Mat34) (feature : MapFeature) :
    Option Int :=
  if feature.posesIds.length = 1 then
    (feature.posesIds[0]?).map toSigned
  else
    let featureGlob : Mat34 := Mat34.ofVec3 feature.position
    let featureInCamCurr : Mat34 := featureGlob.inverse * currentCameraPose
    let featureViewCurr : Vec3 := featureInCamCurr.viewAxis
    match (feature.posesIds.enum).foldl (findNearestFrameInner s featureGlob featureViewCurr)
        (some (-1, none)) with
    | none => none
    | some (_, idMax) => idMax

/-- The function `FeaturesMap::findNearestFrame`: the vector `imageIds` after the call. -/
def FeaturesMap.findNearestFrame (s : FeaturesMap) (features : List MapFeature) :
    Option (List Int) :=
  match s.getSensorPose (-1) with
  | none => none
  | some currentCameraPose => features.mapM (findNearestFrameBody s currentCameraPose)

/-! ## The optimizer loop -/

/-- What the solver produces in one pass of the loop of `FeaturesMap::optimize`.
Modelled from the spec: the solver reports success or failure (`report`); the
source calls `poseGraph->optimize(iterNo, verbose)` as a statement and reads the
snapshots afterwards.  The field `tryLock` is the result of the `try_lock` of the
drain in this pass. -/
structure SolverPass where
  report : Bool
  optimizedFeatures : List MapFeature
  tryLock : Bool
  optimizedPoses : List VertexSE3
deriving DecidableEq, Repr

/-- One pass of the loop `while (continueOpt)` of `FeaturesMap::optimize`, lines 283
to 308.  The value of the call `poseGraph->optimize` is not read by the source. -/
def FeaturesMap.optimizeLoopPass (s : FeaturesMap) (pass : SolverPass) : FeaturesMap :=
  s.optimizePass pass.optimizedFeatures pass.tryLock pass.optimizedPoses

/-- The loop `while (continueOpt)` of `FeaturesMap::optimize` run for as many passes
as the list has entries. -/
def FeaturesMap.optimizeLoop (s : FeaturesMap) (passes : List SolverPass) : FeaturesMap :=
  passes.foldl FeaturesMap.optimizeLoopPass s

/-! ## Text dump -/

/-- Element access `descriptor.at<double>(i, j)`: row `i`, column `j` of a matrix
stored row by row; `none` when the index is not inside the matrix. -/
def CvMat.at (m : CvMat) (i j : Nat) : Option Int :=
  if i < m.rows ∧ j < m.cols then m.data[i * m.cols + j]? else none

/-- The twelve entries of a pose as `FeaturesMap::save2file` writes them: the loop
over `i < 3`, `j < 4` of `pose(i, j)`. -/
def poseEntries (pose : Mat34) : List Int :=
  [pose.m00, pose.m01, pose.m02, pose.m03,
   pose.m10, pose.m11, pose.m12, pose.m13,
   pose.m20, pose.m21, pose.m22, pose.m23]

/-- The index pairs at which `FeaturesMap::save2file` reads a descriptor, in order:
the loop over `i < descriptor.cols`, `j < descriptor.rows` of `at<double>(i, j)`. -/
def descriptorReads (descriptor : CvMat) : List (Nat × Nat) :=
  (List.range descriptor.cols).flatMap (fun i => (List.range descriptor.rows).map (fun j => (i, j)))

/-- What the dump lists for one extended descriptor: the origin pose id, `cols`, `rows`
and the values read. -/
structure DescriptorDump where
  poseId : Nat
  cols : Nat
  rows : Nat
  values : List Int
deriving DecidableEq, Repr

/-- A line of the text dump.  The five legend lines are numbered; the line
`FeatureExtendedDescriptors` carries the count and the descriptor blocks. -/
inductive DumpLine where
  | legend (k : Nat)
  | pose (vertexId : Nat) (entries : List Int)
  | feature (id : Nat) (x y z : Int) (u v : Nat)
  | featurePoseIds (posesIds : List Nat)
  | featureExtendedDescriptors (size : Nat) (blocks : List DescriptorDump)
deriving DecidableEq, Repr

/-- The block written for one extended descriptor; `none` when an element is read
outside the matrix. -/
def dumpDescriptor (iter : ExtendedDescriptor) : Option DescriptorDump :=
  ((descriptorReads iter.descriptor).mapM (fun ij => iter.descriptor.at ij.1 ij.2)).map
    (fun values =>
      { poseId := iter.poseId, cols := iter.descriptor.cols, rows := iter.descriptor.rows,
        values := values })

/-- The three lines written for one landmark. -/
def dumpFeature (it : MapFeature) : Option (List DumpLine) :=
  (it.descriptors.mapM dumpDescriptor).map (fun blocks =>
    [.feature it.id it.position.x it.position.y it.position.z it.u it.v,
     .featurePoseIds it.posesIds,
     .featureExtendedDescriptors it.descriptors.length blocks])

/-- The `Pose` lines of the dump, one per trajectory entry. -/
def FeaturesMap.poseLines (s : FeaturesMap) : List DumpLine :=
  s.camTrajectory.map (fun it => .pose it.vertexId (poseEntries it.pose))

/-- The function `FeaturesMap::save2file`: the lines written to the map file; `none`
when a descriptor element is read outside its matrix. -/
def FeaturesMap.save2file (s : FeaturesMap) : Option (List DumpLine) :=
  (s.featuresMapFrontend.mapM dumpFeature).map (fun featureLines =>
    (List.range 5).map DumpLine.legend ++ s.poseLines ++ featureLines.flatten)

/-! ## Sequences of calls -/

/-- A call that changes the state of the map.  The tracker issues the first five;
`stageOptimizedFeatures` and `updateCamTrajectory` are the steps of the optimizer
thread.  The call `updateMap` also stands for the drain attempted at the end of
`getAllFeatures` and `getVisibleFeatures`. -/
inductive Call where
  | addNewPose (cameraPoseChange : Mat34) (timestamp : Int) (image depthImage : CvMat)
  | addFeatures (features : List RGBDFeature) (poseId : Int) (tryLock : Bool)
  | addMeasurements (features : List MapFeature) (poseId : Int)
  | addMeasurement (poseFrom poseTo : Int) (transformation : Mat34)
  | updateMap (tryLock : Bool)
  | stageOptimizedFeatures (optimizedFeatures : List MapFeature)
  | updateCamTrajectory (poses2update : List VertexSE3)
deriving DecidableEq, Repr

/-- The state after one call; `none` when the call reads outside a vector. -/
def FeaturesMap.call (FATURES_START_ID : Nat) (sensorModel : DepthSensorModel)
    (s : FeaturesMap) : Call → Option FeaturesMap
  | .addNewPose dT timestamp image depthImage =>
    some (s.addNewPose dT timestamp image depthImage).1
  | .addFeatures features poseId tryLock => s.addFeatures sensorModel features poseId tryLock
  | .addMeasurements features poseId =>
    s.addMeasurements FATURES_START_ID sensorModel features poseId
  | .addMeasurement poseFrom poseTo transformation =>
    some (s.addMeasurement poseFrom poseTo transformation)
  | .updateMap tryLock => some (s.updateMap tryLock)
  | .stageOptimizedFeatures optimizedFeatures =>
    some (s.stageOptimizedFeatures optimizedFeatures)
  | .updateCamTrajectory poses2update => some (s.updateCamTrajectory poses2update)

/-- The state after a sequence of calls, from left to right. -/
def FeaturesMap.run (FATURES_START_ID : Nat) (sensorModel : DepthSensorModel)
    (s : FeaturesMap) (calls : List Call) : Option FeaturesMap :=
  calls.foldlM (FeaturesMap.call FATURES_START_ID sensorModel) s

/-- The pose increments handed to `addNewPose` in a sequence of calls, in order. -/
def posesOf : List Call → List Mat34
  | [] => []
  | .addNewPose dT _ _ _ :: rest => dT :: posesOf rest
  | _ :: rest => posesOf rest

/-- Whether a call writes optimized poses into the trajectory. -/
def Call.appliesPoses : Call → Bool
  | .updateCamTrajectory _ => true
  | _ => false

/-- The product `d0 * d1 * ... * dn` taken from the left, as the source composes
poses; the identity for no factor. -/
def composeAll : List Mat34 → Mat34
  | [] => Mat34.Identity
  | d :: ds => ds.foldl (fun pose odo => pose * odo) d

/-- The ids of the landmarks in the live map followed by those staged for addition. -/
def FeaturesMap.allIds (s : FeaturesMap) : List Nat :=
  (s.featuresMapFrontend ++ s.bufferMapFrontend.features2add).map (fun f => f.id)

/-- Landmark ids are consecutive from `FATURES_START_ID` in the order of creation, and
`featureIdNo` is the next free id. -/
def FeaturesMap.idsConsecutive (FATURES_START_ID : Nat) (s : FeaturesMap) : Prop :=
  s.allIds = List.range' FATURES_START_ID s.allIds.length ∧
    s.featureIdNo = FATURES_START_ID + s.allIds.length

instance (FATURES_START_ID : Nat) (s : FeaturesMap) :
    Decidable (s.idsConsecutive FATURES_START_ID) := by
  unfold FeaturesMap.idsConsecutive
  infer_instance

/-! ## Sample data -/

/-- A configuration without uncertainty weighting. -/
def sampleConfig : Config :=
  { useUncertainty := false, edges3DPrunningThreshold := 0, weakFeatureThr := 0,
    fixVertices := false }

/-- A sensor model whose information matrix is the identity and whose inverse model
always answers with the sentinel. -/
def sampleSensor : DepthSensorModel :=
  { informationMatrixFromImageCoordinates := fun _ _ _ => Mat33.Identity,
    inverseModel := fun _ _ _ => { x := -1, y := -1, z := -1 } }

/-- The value used for `FATURES_START_ID` in the examples. -/
def sampleStartId : Nat := 1048576

/-- An empty image. -/
def sampleImage : CvMat := { rows := 0, cols := 0, data := [] }

/-- A feature one unit in front of the camera. -/
def sampleFeature : RGBDFeature :=
  { u := 320, v := 240, position := { x := 0, y := 0, z := 1 }, descriptors := [] }

/-- A fresh map. -/
def sampleMap : FeaturesMap := FeaturesMap.new sampleStartId sampleConfig

/-- The call `addNewPose(translate(1,0,0), ...)` at time `t`. -/
def stepRight (t : Int) : Call :=
  .addNewPose (translate 1 0 0) t sampleImage sampleImage

/-- Three poses, each one unit to the right of the previous one; no optimizer
result has been applied. -/
def threePoses : FeaturesMap :=
  (((sampleMap.addNewPose (translate 1 0 0) 0 sampleImage sampleImage).1.addNewPose
    (translate 1 0 0) 1 sampleImage sampleImage).1.addNewPose
    (translate 1 0 0) 2 sampleImage sampleImage).1

/-- Two poses: the origin and one unit to the right of it. -/
def twoPoses : FeaturesMap :=
  ((sampleMap.addNewPose Mat34.Identity 0 sampleImage sampleImage).1.addNewPose
    (translate 1 0 0) 1 sampleImage sampleImage).1

/-- A snapshot of the optimizer that puts landmark `id` at `(x, y, z)`. -/
def optimizedAt (id : Nat) (x y z : Int) : MapFeature :=
  { id := id, u := 0, v := 0, position := { x := x, y := y, z := z }, posesIds := [],
    descriptors := [] }

/-- The trajectory part of the state after the pose increments `dTs` were added to a
fresh map and no optimized pose was written back: the first stored pose is the
first increment, the last stored pose is the product of all increments, and the
odometry sequence holds the increments from the second one on. -/
def FeaturesMap.tracksPoses (dTs : List Mat34) (s : FeaturesMap) : Prop :=
  s.lastOptimizedPose = 0 ∧
  s.odoMeasurements.length = s.camTrajectory.length ∧
  s.camTrajectory.length = dTs.length ∧
  s.odoMeasurements.drop 1 = dTs.drop 1 ∧
  (s.camTrajectory.head?).map (fun v => v.pose) = dTs.head? ∧
  (dTs ≠ [] → (s.camTrajectory.getLast?).map (fun v => v.pose) = some (composeAll dTs))

/-- The call `addNewPose(Identity, ...)` at time 0: a first pose at the world origin. -/
def originPose : Call :=
  .addNewPose Mat34.Identity 0 sampleImage sampleImage

/-- A live map of two landmarks, with ids 5 and 6. -/
def sampleLive : List MapFeature :=
  [{ id := 5, u := 10, v := 20, position := { x := 0, y := 0, z := 1 }, posesIds := [0, 1],
     descriptors := [{ poseId := 0, descriptor := { rows := 1, cols := 2, data := [7, 8] } }] },
   { id := 6, u := 30, v := 40, position := { x := 0, y := 0, z := 2 }, posesIds := [1],
     descriptors := [] }]

/-- A buffer that stages landmark 7 for addition and a new position for landmark 5. -/
def sampleModifier : MapModifier :=
  { features2add := [optimizedAt 7 1 1 1], features2update := [optimizedAt 5 9 9 9] }

/-- The calls that put two landmarks, seen from a first pose at the origin, into the
live map. -/
def twoLandmarksCalls : List Call :=
  [originPose, .addFeatures [sampleFeature, sampleFeature] 0 true]

/-- The state after `twoLandmarksCalls` on a fresh map. -/
def twoLandmarks : FeaturesMap :=
  (sampleMap.run sampleStartId sampleSensor twoLandmarksCalls).getD sampleMap

/-- Three poses one unit apart after the optimizer has moved pose 1 to `(10, 0, 0)`. -/
def threePosesOptimized : FeaturesMap :=
  threePoses.updateCamTrajectory
    [{ vertexId := 1, pose := translate 10 0 0, timestamp := 1 }]

/-- The sentinel `(-1, -1, -1)` of `inverseModel`. -/
def sentinel : Vec3 := { x := -1, y := -1, z := -1 }

/-- The position of a world point in the frame of the camera: the translation of
`cameraPose.inverse() * featurePos`. -/
def cameraFramePosition (cameraPose : Mat34) (position : Vec3) : Vec3 :=
  (cameraPose.inverse * Mat34.ofVec3 position).translation

/-- A sensor model that sees a point in front of the camera inside a window of 640 by
480 and answers with the sentinel otherwise. -/
def windowSensor : DepthSensorModel :=
  { informationMatrixFromImageCoordinates := fun _ _ _ => Mat33.Identity,
    inverseModel := fun x y z =>
      if 0 < z ∧ 0 ≤ x ∧ x < 640 ∧ 0 ≤ y ∧ y < 480 then { x := x, y := y, z := z }
      else sentinel }

/-- A feature one unit behind the camera. -/
def behindFeature : RGBDFeature :=
  { u := 1, v := 2, position := { x := 0, y := 0, z := -1 }, descriptors := [] }

/-- The calls that put one landmark in front of and one behind a first pose at the
origin. -/
def frontAndBehindCalls : List Call :=
  [originPose, .addFeatures [sampleFeature, behindFeature] 0 true]

/-- The state after `frontAndBehindCalls` on a fresh map. -/
def frontAndBehind : FeaturesMap :=
  (sampleMap.run sampleStartId windowSensor frontAndBehindCalls).getD sampleMap

/-- The calls that make a landmark seen from poses 1 and 2 of three poses. -/
def seenTwiceCalls : List Call :=
  [stepRight 0, stepRight 1, stepRight 2, .addFeatures [sampleFeature] 1 true,
    .addMeasurements [optimizedAt sampleStartId 0 0 1] 2]

/-- The state after `seenTwiceCalls` on a fresh map. -/
def seenTwice : FeaturesMap :=
  (sampleMap.run sampleStartId sampleSensor seenTwiceCalls).getD sampleMap

/-- The calls that give two poses and one landmark seen from pose 0. -/
def twoPosesOneLandmarkCalls : List Call :=
  [originPose, stepRight 1, .addFeatures [sampleFeature] 0 true]

/-- The state after `twoPosesOneLandmarkCalls` on a fresh map. -/
def twoPosesOneLandmark : FeaturesMap :=
  (sampleMap.run sampleStartId sampleSensor twoPosesOneLandmarkCalls).getD sampleMap

/-- A pass in which the solver reports failure and still hands out snapshots. -/
def failedPass (tryLock : Bool) : SolverPass :=
  { report := false, optimizedFeatures := [optimizedAt sampleStartId 5 5 5],
    tryLock := tryLock,
    optimizedPoses := [{ vertexId := 1, pose := translate 7 0 0, timestamp := 1 }] }

/-- The point `R * p + t` for the rotation `R` and the translation `t` of a pose. -/
def worldPosition (cameraPose : Mat34) (p : Vec3) : Vec3 :=
  { x := cameraPose.m00 * p.x + cameraPose.m01 * p.y + cameraPose.m02 * p.z + cameraPose.m03,
    y := cameraPose.m10 * p.x + cameraPose.m11 * p.y + cameraPose.m12 * p.z + cameraPose.m13,
    z := cameraPose.m20 * p.x + cameraPose.m21 * p.y + cameraPose.m22 * p.z + cameraPose.m23 }

/-- The landmarks expected from the ingestion of `features` seen from `cameraPose`:
one per feature, in order, with consecutive ids from `idNo`, the image coordinates
and descriptors of the feature, and the world position `R * p + t`.  The pose id
is recorded as the source records it. -/
def expectedLandmarks (cameraPose : Mat34) (poseId : Int) (idNo : Nat) :
    List RGBDFeature → List MapFeature
  | [] => []
  | it :: rest =>
    { id := idNo, u := it.u, v := it.v, position := worldPosition cameraPose it.position,
      posesIds := [toUnsigned poseId], descriptors := it.descriptors } ::
      expectedLandmarks cameraPose poseId (idNo + 1) rest

/-- One pose, at the world origin. -/
def onePose : FeaturesMap :=
  (sampleMap.addNewPose Mat34.Identity 0 sampleImage sampleImage).1

/-- The pose id meant by the argument of `addMeasurements`: the argument itself, or
the last pose of the trajectory when the argument is negative. -/
def FeaturesMap.selectedPose (s : FeaturesMap) (poseId : Int) : Nat :=
  if 0 ≤ poseId then poseId.toNat else s.camTrajectory.length - 1

/-- The observation edge expected for a re-observed landmark: from pose `p` to the
landmark, with the supplied camera-frame position as measurement. -/
def measurementEdge (sensorModel : DepthSensorModel) (config : Config) (p : Nat)
    (it : MapFeature) : Edge3D :=
  { trans := it.position,
    info := if config.useUncertainty then
      sensorModel.informationMatrixFromImageCoordinates it.u it.v it.position.z
      else Mat33.Identity,
    fromVertexId := p, toVertexId := it.id }

/-- The state `s1` is the state `s` after the measurements `features` from pose `p` were
added: the live map has the same landmarks at the same indices, each with `p`
appended to `posesIds` once per listed feature with its id and with all other
fields as before; the graph has one more observation edge per listed feature, in
order; nothing else is changed. -/
def MeasurementsAdded (sensorModel : DepthSensorModel) (features : List MapFeature) (p : Nat)
    (s s1 : FeaturesMap) : Prop :=
  s1.featuresMapFrontend.length = s.featuresMapFrontend.length ∧
  (∀ (k : Nat) (f : MapFeature), s.featuresMapFrontend[k]? = some f →
    s1.featuresMapFrontend[k]? =
      some { f with posesIds := f.posesIds ++
        List.replicate (features.countP (fun it => decide (it.id = f.id))) p }) ∧
  s1.poseGraph.edges3D =
    s.poseGraph.edges3D ++ features.map (measurementEdge sensorModel s.config p) ∧
  s1 = { s with featuresMapFrontend := s1.featuresMapFrontend,
                poseGraph := { s.poseGraph with edges3D := s1.poseGraph.edges3D } }

/-- The timestamps handed to `addNewPose` in a sequence of calls, in order. -/
def timestampsOf : List Call → List Int
  | [] => []
  | .addNewPose _ timestamp _ _ :: rest => timestamp :: timestampsOf rest
  | _ :: rest => timestampsOf rest

/-- Whether every `updateCamTrajectory` call of the sequence, run from the state `s`,
hands over a snapshot that contains only vertexIds of entries the trajectory has
at the time of the call. -/
def FeaturesMap.snapshotsKnown (FATURES_START_ID : Nat) (sensorModel : DepthSensorModel) :
    FeaturesMap → List Call → Bool
  | _, [] => true
  | s, c :: rest =>
    (match c with
      | .updateCamTrajectory poses2update =>
        poses2update.all (fun p => s.camTrajectory.any (fun v => v.vertexId == p.vertexId))
      | _ => true) &&
    (match s.call FATURES_START_ID sensorModel c with
      | some s1 => s1.snapshotsKnown FATURES_START_ID sensorModel rest
      | none => true)

/-- A feature with one descriptor of 1 row and 2 columns. -/
def describedFeature : RGBDFeature :=
  { u := 320, v := 240, position := { x := 0, y := 0, z := 1 },
    descriptors := [{ poseId := 0, descriptor := { rows := 1, cols := 2, data := [7, 8] } }] }

/-- The calls that put a landmark with a 1 by 2 descriptor into the live map. -/
def describedCalls : List Call :=
  [originPose, .addFeatures [describedFeature] 0 true]

/-- The state after `describedCalls` on a fresh map. -/
def described : FeaturesMap :=
  (sampleMap.run sampleStartId sampleSensor describedCalls).getD sampleMap

/-- The calls that leave one landmark in the live map and one staged in `features2add`. -/
def drainedAndStagedCalls : List Call :=
  [originPose, .addFeatures [sampleFeature] 0 true, .addFeatures [behindFeature] 0 false]

/-- The state after `drainedAndStagedCalls` on a fresh map. -/
def drainedAndStaged : FeaturesMap :=
  (sampleMap.run sampleStartId sampleSensor drainedAndStagedCalls).getD sampleMap

/-- Three poses, then a snapshot of the optimizer for pose 1. -/
def optimizedCalls : List Call :=
  [stepRight 0, stepRight 1, stepRight 2,
    .updateCamTrajectory [{ vertexId := 1, pose := translate 10 0 0, timestamp := 1 }]]

/-! ## Reconciliation: lemmas -/

theorem updateFeature_length (l : List MapFeature) (g : MapFeature) :
    (updateFeature l g).length = l.length := by
  simp [updateFeature]

theorem updateFeature_append (a b : List MapFeature) (g : MapFeature) :
    updateFeature (a ++ b) g = updateFeature a g ++ updateFeature b g := by
  simp [updateFeature]

theorem updateFeature_map_id (l : List MapFeature) (g : MapFeature) :
    (updateFeature l g).map (fun f => f.id) = l.map (fun f => f.id) := by
  unfold updateFeature
  rw [List.map_map]
  apply List.map_congr_left
  intro f _
  by_cases h : f.id = g.id <;> simp [h]

theorem foldl_updateFeature_length (ups l : List MapFeature) :
    (ups.foldl updateFeature l).length = l.length := by
  induction ups generalizing l with
  | nil => rfl
  | cons g ups ih => rw [List.foldl_cons, ih, updateFeature_length]

theorem foldl_updateFeature_append (ups a b : List MapFeature) :
    ups.foldl updateFeature (a ++ b) = ups.foldl updateFeature a ++ ups.foldl updateFeature b := by
  induction ups generalizing a b with
  | nil => rfl
  | cons g ups ih => rw [List.foldl_cons, updateFeature_append, ih, List.foldl_cons, List.foldl_cons]

theorem foldl_updateFeature_map_id (ups l : List MapFeature) :
    (ups.foldl updateFeature l).map (fun f => f.id) = l.map (fun f => f.id) := by
  induction ups generalizing l with
  | nil => rfl
  | cons g ups ih => rw [List.foldl_cons, ih, updateFeature_map_id]

/-- What a run of `updateFeature` over `ups` does to the landmark at index `k`. -/
theorem foldl_updateFeature_getElem? (ups l : List MapFeature) (k : Nat) (f : MapFeature)
    (h : l[k]? = some f) :
    ∃ f1, (ups.foldl updateFeature l)[k]? = some f1 ∧ f1.id = f.id ∧ f1.u = f.u ∧ f1.v = f.v ∧
      f1.posesIds = f.posesIds ∧ f1.descriptors = f.descriptors ∧
      ((∀ g ∈ ups, g.id ≠ f.id) → f1.position = f.position) := by
  induction ups generalizing l f with
  | nil => exact ⟨f, h, rfl, rfl, rfl, rfl, rfl, fun _ => rfl⟩
  | cons g ups ih =>
    have hstep : (updateFeature l g)[k]? =
        some (if f.id = g.id then { f with position := g.position } else f) := by
      simp [updateFeature, h]
    obtain ⟨f1, h1, hid, hu, hv, hp, hd, hpos⟩ := ih _ _ hstep
    refine ⟨f1, by simpa using h1, ?_, ?_, ?_, ?_, ?_, ?_⟩
    · rw [hid]; split <;> rfl
    · rw [hu]; split <;> rfl
    · rw [hv]; split <;> rfl
    · rw [hp]; split <;> rfl
    · rw [hd]; split <;> rfl
    · intro hne
      have hg : g.id ≠ f.id := hne g (List.mem_cons_self _ _)
      have hf : ¬ f.id = g.id := fun e => hg e.symm
      have hrest : ∀ g1 ∈ ups, g1.id ≠ (if f.id = g.id then { f with position := g.position } else f).id := by
        intro g1 hg1
        rw [if_neg hf]
        exact hne g1 (List.mem_cons_of_mem _ hg1)
      rw [hpos hrest, if_neg hf]

/-- A drain that acquires the lock empties both queues; the live map becomes the old
live map followed by the staged additions, with the staged updates applied in the
order of `features2update`. -/
theorem updateMap_true (m : MapModifier) (l : List MapFeature) :
    updateMap true m l =
      ({ features2add := [], features2update := [] },
        m.features2update.foldl updateFeature (l ++ m.features2add)) := by
  obtain ⟨adds, ups⟩ := m
  cases adds <;> cases ups <;>
    simp [updateMap, MapModifier.addFeatures, MapModifier.updateFeatures]

theorem updateMap_false (m : MapModifier) (l : List MapFeature) :
    updateMap false m l = (m, l) := by
  simp [updateMap]

/-! ## Frame lemmas -/

section Frame

variable (FATURES_START_ID : Nat) (sensorModel : DepthSensorModel)

theorem FeaturesMap.updateMap_allIds (s : FeaturesMap) (tryLock : Bool) :
    (s.updateMap tryLock).allIds = s.allIds := by
  cases tryLock
  · simp [FeaturesMap.updateMap, FeaturesMap.allIds, updateMap_false]
  · simp only [FeaturesMap.updateMap, FeaturesMap.allIds, updateMap_true, List.append_nil]
    rw [foldl_updateFeature_map_id]

theorem addFeaturesBody_allIds (cameraPose : Mat34) (poseId : Int) (camTrajSize : Nat)
    (s : FeaturesMap) (it : RGBDFeature) :
    (addFeaturesBody sensorModel cameraPose poseId camTrajSize s it).allIds =
      s.allIds ++ [s.featureIdNo] := by
  simp [addFeaturesBody, FeaturesMap.allIds]

theorem addFeaturesBody_idsConsecutive (cameraPose : Mat34) (poseId : Int) (camTrajSize : Nat)
    (s : FeaturesMap) (it : RGBDFeature) (h : s.idsConsecutive FATURES_START_ID) :
    (addFeaturesBody sensorModel cameraPose poseId camTrajSize s it).idsConsecutive
      FATURES_START_ID := by
  obtain ⟨hids, hno⟩ := h
  have hfid : (addFeaturesBody sensorModel cameraPose poseId camTrajSize s it).featureIdNo =
      s.featureIdNo + 1 := rfl
  unfold FeaturesMap.idsConsecutive
  rw [addFeaturesBody_allIds, hfid, List.length_append, List.length_singleton,
    List.range'_concat, ← hids, hno]
  constructor
  · simp
  · omega

theorem foldl_addFeaturesBody_idsConsecutive (cameraPose : Mat34) (poseId : Int)
    (camTrajSize : Nat) (features : List RGBDFeature) (s : FeaturesMap)
    (h : s.idsConsecutive FATURES_START_ID) :
    (features.foldl (addFeaturesBody sensorModel cameraPose poseId camTrajSize) s).idsConsecutive
      FATURES_START_ID := by
  induction features generalizing s with
  | nil => exact h
  | cons it rest ih =>
    exact ih _ (addFeaturesBody_idsConsecutive FATURES_START_ID sensorModel _ _ _ s it h)

theorem FeaturesMap.updateMap_idsConsecutive (s : FeaturesMap) (tryLock : Bool)
    (h : s.idsConsecutive FATURES_START_ID) :
    (s.updateMap tryLock).idsConsecutive FATURES_START_ID := by
  unfold FeaturesMap.idsConsecutive at *
  rw [FeaturesMap.updateMap_allIds]
  exact h

/-- A successful iteration of the loop of `addMeasurements` appends `_poseId` to the
landmark at index `id - FATURES_START_ID` and adds one edge. -/
theorem addMeasurementsBody_eq_some (_poseId : Nat) (s s1 : FeaturesMap) (it : MapFeature)
    (h : addMeasurementsBody FATURES_START_ID sensorModel _poseId s it = some s1) :
    ∃ k f, featureIndex FATURES_START_ID it.id = some k ∧ s.featuresMapFrontend[k]? = some f ∧
      s1 = { s with
        featuresMapFrontend :=
          s.featuresMapFrontend.set k { f with posesIds := f.posesIds ++ [_poseId] },
        poseGraph := s.poseGraph.addEdge3D
          { trans := it.position,
            info := if s.config.useUncertainty then
              sensorModel.informationMatrixFromImageCoordinates it.u it.v it.position.z
              else Mat33.Identity,
            fromVertexId := _poseId, toVertexId := it.id } } := by
  unfold addMeasurementsBody at h
  cases hk : featureIndex FATURES_START_ID it.id with
  | none => simp [hk] at h
  | some k =>
    cases hf : s.featuresMapFrontend[k]? with
    | none => simp [hk, hf] at h
    | some f =>
      simp only [hk, hf] at h
      injection h with h
      exact ⟨k, f, rfl, hf, h.symm⟩

theorem addMeasurementsBody_allIds (_poseId : Nat) (s s1 : FeaturesMap) (it : MapFeature)
    (h : addMeasurementsBody FATURES_START_ID sensorModel _poseId s it = some s1) :
    s1.allIds = s.allIds ∧ s1.featureIdNo = s.featureIdNo := by
  obtain ⟨k, f, _, hf, rfl⟩ := addMeasurementsBody_eq_some FATURES_START_ID sensorModel _ _ _ _ h
  have hk : k < s.featuresMapFrontend.length := (List.getElem?_eq_some_iff.mp hf).1
  have hfk : s.featuresMapFrontend[k] = f := (List.getElem?_eq_some_iff.mp hf).2
  refine ⟨?_, rfl⟩
  simp only [FeaturesMap.allIds, List.map_append, List.map_set]
  congr 1
  apply List.ext_getElem
  · simp
  · intro n h1 h2
    rw [List.getElem_set]
    split
    · rename_i hkn
      subst hkn
      simp [hfk]
    · rfl

theorem foldlM_addMeasurementsBody_allIds (_poseId : Nat) (features : List MapFeature)
    (s s1 : FeaturesMap)
    (h : features.foldlM (addMeasurementsBody FATURES_START_ID sensorModel _poseId) s = some s1) :
    s1.allIds = s.allIds ∧ s1.featureIdNo = s.featureIdNo := by
  induction features generalizing s with
  | nil =>
    simp only [List.foldlM_nil] at h
    cases h
    exact ⟨rfl, rfl⟩
  | cons it rest ih =>
    rw [List.foldlM_cons] at h
    cases hb : addMeasurementsBody FATURES_START_ID sensorModel _poseId s it with
    | none => rw [hb] at h; cases h
    | some s2 =>
      rw [hb] at h
      obtain ⟨h1, h2⟩ := ih s2 h
      obtain ⟨h3, h4⟩ := addMeasurementsBody_allIds FATURES_START_ID sensorModel _ _ _ _ hb
      exact ⟨h1.trans h3, h2.trans h4⟩

theorem foldl_updatePose_allIds (poses : List VertexSE3) (s : FeaturesMap) :
    (poses.foldl FeaturesMap.updatePose s).allIds = s.allIds ∧
      (poses.foldl FeaturesMap.updatePose s).featureIdNo = s.featureIdNo ∧
      (poses.foldl FeaturesMap.updatePose s).featuresMapFrontend = s.featuresMapFrontend := by
  induction poses generalizing s with
  | nil => exact ⟨rfl, rfl, rfl⟩
  | cons p rest ih =>
    rw [List.foldl_cons]
    obtain ⟨h1, h2, h3⟩ := ih (s.updatePose p)
    exact ⟨h1, h2, h3⟩

/-- Every call keeps the landmark ids consecutive. -/
theorem FeaturesMap.call_idsConsecutive (s s1 : FeaturesMap) (c : Call)
    (h : s.idsConsecutive FATURES_START_ID)
    (hc : s.call FATURES_START_ID sensorModel c = some s1) :
    s1.idsConsecutive FATURES_START_ID := by
  cases c with
  | addNewPose dT t image depthImage =>
    simp only [FeaturesMap.call, Option.some.injEq] at hc
    subst hc
    unfold FeaturesMap.addNewPose
    split <;> exact h
  | addFeatures features poseId tryLock =>
    simp only [FeaturesMap.call, FeaturesMap.addFeatures] at hc
    split at hc
    · cases hc
    · injection hc with hc
      subst hc
      exact FeaturesMap.updateMap_idsConsecutive FATURES_START_ID _ _
        (foldl_addFeaturesBody_idsConsecutive FATURES_START_ID sensorModel _ _ _ _ _ h)
  | addMeasurements features poseId =>
    simp only [FeaturesMap.call, FeaturesMap.addMeasurements] at hc
    obtain ⟨h1, h2⟩ := foldlM_addMeasurementsBody_allIds FATURES_START_ID sensorModel _ _ _ _ hc
    unfold FeaturesMap.idsConsecutive at *
    rw [h1, h2]
    exact h
  | addMeasurement poseFrom poseTo T =>
    simp only [FeaturesMap.call, Option.some.injEq] at hc
    subst hc
    exact h
  | updateMap tryLock =>
    simp only [FeaturesMap.call, Option.some.injEq] at hc
    subst hc
    exact FeaturesMap.updateMap_idsConsecutive FATURES_START_ID _ _ h
  | stageOptimizedFeatures optimizedFeatures =>
    simp only [FeaturesMap.call, Option.some.injEq] at hc
    subst hc
    exact h
  | updateCamTrajectory poses =>
    simp only [FeaturesMap.call, Option.some.injEq] at hc
    subst hc
    obtain ⟨h1, h2, _⟩ := foldl_updatePose_allIds poses s
    unfold FeaturesMap.idsConsecutive FeaturesMap.updateCamTrajectory at *
    rw [h1, h2]
    exact h

/-- A property kept by every call holds after every sequence of calls. -/
theorem FeaturesMap.run_induction (P : FeaturesMap → Prop)
    (hstep : ∀ s c s1, P s → s.call FATURES_START_ID sensorModel c = some s1 → P s1)
    (calls : List Call) (s s1 : FeaturesMap) (h0 : P s)
    (hrun : s.run FATURES_START_ID sensorModel calls = some s1) : P s1 := by
  induction calls generalizing s with
  | nil =>
    simp only [FeaturesMap.run, List.foldlM_nil] at hrun
    cases hrun
    exact h0
  | cons c rest ih =>
    simp only [FeaturesMap.run, List.foldlM_cons] at hrun
    cases hc : s.call FATURES_START_ID sensorModel c with
    | none => rw [hc] at hrun; cases hrun
    | some s2 =>
      rw [hc] at hrun
      exact ih s2 (hstep s c s2 h0 hc) hrun

/-- In every state reached from a fresh map the landmark ids are consecutive. -/
theorem FeaturesMap.run_idsConsecutive (config : Config) (calls : List Call) (s : FeaturesMap)
    (hrun : (FeaturesMap.new FATURES_START_ID config).run FATURES_START_ID sensorModel calls =
      some s) : s.idsConsecutive FATURES_START_ID := by
  refine FeaturesMap.run_induction FATURES_START_ID sensorModel
    (fun s => s.idsConsecutive FATURES_START_ID) ?_ calls _ s ?_ hrun
  · intro s c s1 h hc
    exact FeaturesMap.call_idsConsecutive FATURES_START_ID sensorModel s s1 c h hc
  · exact ⟨rfl, rfl⟩

end Frame

/-! ## The trajectory under calls that do not write optimized poses -/

section Trajectory

variable (FATURES_START_ID : Nat) (sensorModel : DepthSensorModel)

theorem foldl_addFeaturesBody_trajectory (cameraPose : Mat34) (poseId : Int)
    (camTrajSize : Nat) (features : List RGBDFeature) (s : FeaturesMap) :
    (features.foldl (addFeaturesBody sensorModel cameraPose poseId camTrajSize) s).camTrajectory =
        s.camTrajectory ∧
      (features.foldl (addFeaturesBody sensorModel cameraPose poseId camTrajSize)
        s).odoMeasurements = s.odoMeasurements ∧
      (features.foldl (addFeaturesBody sensorModel cameraPose poseId camTrajSize)
        s).lastOptimizedPose = s.lastOptimizedPose := by
  induction features generalizing s with
  | nil => exact ⟨rfl, rfl, rfl⟩
  | cons it rest ih =>
    rw [List.foldl_cons]
    exact ih _

theorem foldlM_addMeasurementsBody_trajectory (_poseId : Nat) (features : List MapFeature)
    (s s1 : FeaturesMap)
    (h : features.foldlM (addMeasurementsBody FATURES_START_ID sensorModel _poseId) s = some s1) :
    s1.camTrajectory = s.camTrajectory ∧ s1.odoMeasurements = s.odoMeasurements ∧
      s1.lastOptimizedPose = s.lastOptimizedPose := by
  induction features generalizing s with
  | nil =>
    simp only [List.foldlM_nil] at h
    cases h
    exact ⟨rfl, rfl, rfl⟩
  | cons it rest ih =>
    rw [List.foldlM_cons] at h
    cases hb : addMeasurementsBody FATURES_START_ID sensorModel _poseId s it with
    | none => rw [hb] at h; cases h
    | some s2 =>
      rw [hb] at h
      obtain ⟨h1, h2, h3⟩ := ih s2 h
      obtain ⟨k, f, _, _, hs2⟩ :=
        addMeasurementsBody_eq_some FATURES_START_ID sensorModel _ _ _ _ hb
      subst hs2
      exact ⟨h1, h2, h3⟩

/-- Calls other than `addNewPose` and `updateCamTrajectory` leave the trajectory, the
odometry sequence and `lastOptimizedPose` as they are. -/
theorem FeaturesMap.call_trajectory (s s1 : FeaturesMap) (c : Call)
    (hc : s.call FATURES_START_ID sensorModel c = some s1)
    (hpose : ∀ dT t image depthImage, c ≠ .addNewPose dT t image depthImage)
    (hopt : c.appliesPoses = false) :
    s1.camTrajectory = s.camTrajectory ∧ s1.odoMeasurements = s.odoMeasurements ∧
      s1.lastOptimizedPose = s.lastOptimizedPose := by
  cases c with
  | addNewPose dT t image depthImage => exact absurd rfl (hpose dT t image depthImage)
  | addFeatures features poseId tryLock =>
    simp only [FeaturesMap.call, FeaturesMap.addFeatures] at hc
    split at hc
    · cases hc
    · injection hc with hc
      subst hc
      exact foldl_addFeaturesBody_trajectory sensorModel _ _ _ _ _
  | addMeasurements features poseId =>
    simp only [FeaturesMap.call, FeaturesMap.addMeasurements] at hc
    exact foldlM_addMeasurementsBody_trajectory FATURES_START_ID sensorModel _ _ _ _ hc
  | addMeasurement poseFrom poseTo T =>
    simp only [FeaturesMap.call, Option.some.injEq] at hc
    subst hc
    exact ⟨rfl, rfl, rfl⟩
  | updateMap tryLock =>
    simp only [FeaturesMap.call, Option.some.injEq] at hc
    subst hc
    exact ⟨rfl, rfl, rfl⟩
  | stageOptimizedFeatures optimizedFeatures =>
    simp only [FeaturesMap.call, Option.some.injEq] at hc
    subst hc
    exact ⟨rfl, rfl, rfl⟩
  | updateCamTrajectory poses => simp [Call.appliesPoses] at hopt

theorem composeAll_concat (dTs : List Mat34) (dT : Mat34) (h : dTs ≠ []) :
    composeAll (dTs ++ [dT]) = composeAll dTs * dT := by
  cases dTs with
  | nil => exact absurd rfl h
  | cons d rest => simp [composeAll, List.foldl_append]

/-- The call `addNewPose` extends the tracked increments by one. -/
theorem FeaturesMap.addNewPose_tracksPoses (dTs : List Mat34) (s : FeaturesMap) (dT : Mat34)
    (t : Int) (image depthImage : CvMat) (h : s.tracksPoses dTs) :
    (s.addNewPose dT t image depthImage).1.tracksPoses (dTs ++ [dT]) := by
  obtain ⟨hopt, hlen, hn, hodo, hhead, hlast⟩ := h
  unfold FeaturesMap.addNewPose
  cases hb : s.camTrajectory.getLast? with
  | none =>
    have htraj : s.camTrajectory = [] := List.getLast?_eq_none_iff.mp hb
    have hd : dTs = [] := by
      rw [htraj] at hn
      exact List.length_eq_zero.mp hn.symm
    have ho : s.odoMeasurements = [] := by
      rw [htraj] at hlen
      exact List.length_eq_zero.mp hlen
    subst hd
    refine ⟨hopt, ?_, ?_, ?_, ?_, ?_⟩
    · simp [ho, htraj]
    · simp [htraj]
    · simp [ho]
    · simp [htraj]
    · intro _
      simp [htraj, composeAll]
  | some back =>
    have htraj : s.camTrajectory ≠ [] := by
      intro e
      rw [e] at hb
      cases hb
    have hd : dTs ≠ [] := by
      intro e
      rw [e] at hn
      exact htraj (List.length_eq_zero.mp hn)
    have ho : s.odoMeasurements ≠ [] := by
      intro e
      rw [e] at hlen
      exact htraj (List.length_eq_zero.mp hlen.symm)
    have hback : back.pose = composeAll dTs := by
      have := hlast hd
      rw [hb] at this
      simpa using this
    refine ⟨hopt, ?_, ?_, ?_, ?_, ?_⟩
    · simp [hlen]
    · simp [hn]
    · show (s.odoMeasurements ++ [dT]).drop 1 = (dTs ++ [dT]).drop 1
      rw [List.drop_append_of_le_length, List.drop_append_of_le_length, hodo]
      · exact Nat.one_le_iff_ne_zero.mpr (fun e => hd (List.length_eq_zero.mp e))
      · exact Nat.one_le_iff_ne_zero.mpr (fun e => ho (List.length_eq_zero.mp e))
    · show ((s.camTrajectory ++ [_]).head?).map (fun v : VertexSE3 => v.pose) = (dTs ++ [dT]).head?
      rw [List.head?_append_of_ne_nil _ htraj, List.head?_append_of_ne_nil _ hd, hhead]
    · intro _
      show ((s.camTrajectory ++ [_]).getLast?).map (fun v : VertexSE3 => v.pose) = _
      rw [List.getLast?_concat, composeAll_concat dTs dT hd, hback]
      rfl

/-- Every call except `updateCamTrajectory` keeps the trajectory in step with the pose
increments passed so far. -/
theorem FeaturesMap.run_tracksPoses (calls : List Call) (dTs : List Mat34) (s s1 : FeaturesMap)
    (h : s.tracksPoses dTs)
    (hrun : s.run FATURES_START_ID sensorModel calls = some s1)
    (hopt : ∀ c ∈ calls, c.appliesPoses = false) :
    s1.tracksPoses (dTs ++ posesOf calls) := by
  induction calls generalizing s dTs with
  | nil =>
    simp only [FeaturesMap.run, List.foldlM_nil] at hrun
    cases hrun
    simpa [posesOf] using h
  | cons c rest ih =>
    simp only [FeaturesMap.run, List.foldlM_cons] at hrun
    cases hc : s.call FATURES_START_ID sensorModel c with
    | none => rw [hc] at hrun; cases hrun
    | some s2 =>
      rw [hc] at hrun
      have hrest : ∀ c1 ∈ rest, c1.appliesPoses = false :=
        fun c1 h1 => hopt c1 (List.mem_cons_of_mem _ h1)
      have hcopt : c.appliesPoses = false := hopt c (List.mem_cons_self _ _)
      by_cases hp : ∃ dT t image depthImage, c = .addNewPose dT t image depthImage
      · obtain ⟨dT, t, image, depthImage, rfl⟩ := hp
        simp only [FeaturesMap.call, Option.some.injEq] at hc
        subst hc
        have := ih (dTs ++ [dT]) _ (FeaturesMap.addNewPose_tracksPoses dTs s dT t image depthImage h)
          hrun hrest
        simpa [posesOf] using this
      · have hne : ∀ dT t image depthImage, c ≠ .addNewPose dT t image depthImage :=
          fun dT t image depthImage e => hp ⟨dT, t, image, depthImage, e⟩
        obtain ⟨h1, h2, h3⟩ :=
          FeaturesMap.call_trajectory FATURES_START_ID sensorModel s s2 c hc hne hcopt
        have h2inv : s2.tracksPoses dTs := by
          unfold FeaturesMap.tracksPoses at *
          rw [h1, h2, h3]
          exact h
        have hposes : posesOf (c :: rest) = posesOf rest := by
          cases c with
          | addNewPose dT t image depthImage => exact absurd rfl (hne dT t image depthImage)
          | _ => rfl
        rw [hposes]
        exact ih dTs s2 h2inv hrun hrest

theorem foldl_updatePose_lengths (poses : List VertexSE3) (s : FeaturesMap) :
    (poses.foldl FeaturesMap.updatePose s).camTrajectory.length = s.camTrajectory.length ∧
      (poses.foldl FeaturesMap.updatePose s).odoMeasurements = s.odoMeasurements := by
  induction poses generalizing s with
  | nil => exact ⟨rfl, rfl⟩
  | cons p rest ih =>
    rw [List.foldl_cons]
    obtain ⟨h1, h2⟩ := ih (s.updatePose p)
    refine ⟨h1.trans ?_, h2⟩
    simp [FeaturesMap.updatePose]

/-- In every state reached from a fresh map the odometry sequence is as long as the
trajectory. -/
theorem FeaturesMap.run_odoMeasurements_length (config : Config) (calls : List Call)
    (s : FeaturesMap)
    (hrun : (FeaturesMap.new FATURES_START_ID config).run FATURES_START_ID sensorModel calls =
      some s) : s.odoMeasurements.length = s.camTrajectory.length := by
  refine FeaturesMap.run_induction FATURES_START_ID sensorModel
    (fun s => s.odoMeasurements.length = s.camTrajectory.length) ?_ calls _ s rfl hrun
  intro s c s1 h hc
  by_cases hp : ∃ dT t image depthImage, c = .addNewPose dT t image depthImage
  · obtain ⟨dT, t, image, depthImage, rfl⟩ := hp
    simp only [FeaturesMap.call, Option.some.injEq] at hc
    subst hc
    unfold FeaturesMap.addNewPose
    split <;> simp [h]
  · have hne : ∀ dT t image depthImage, c ≠ .addNewPose dT t image depthImage :=
      fun dT t image depthImage e => hp ⟨dT, t, image, depthImage, e⟩
    cases hopt : c.appliesPoses with
    | false =>
      obtain ⟨h1, h2, _⟩ :=
        FeaturesMap.call_trajectory FATURES_START_ID sensorModel s s1 c hc hne hopt
      rw [h1, h2]
      exact h
    | true =>
      cases c with
      | updateCamTrajectory poses =>
        simp only [FeaturesMap.call, Option.some.injEq] at hc
        subst hc
        obtain ⟨h1, h2⟩ := foldl_updatePose_lengths poses s
        unfold FeaturesMap.updateCamTrajectory
        rw [h1, h2]
        exact h
      | _ => simp [Call.appliesPoses] at hopt

end Trajectory

/-! ## Landmark ids in the live map -/

theorem FeaturesMap.idsConsecutive_live (FATURES_START_ID : Nat) (s : FeaturesMap)
    (h : s.idsConsecutive FATURES_START_ID) :
    s.featuresMapFrontend.map (fun f => f.id) =
      List.range' FATURES_START_ID s.featuresMapFrontend.length := by
  have h1 := h.1
  unfold FeaturesMap.allIds at h1
  rw [List.map_append, List.length_append, List.length_map, List.length_map, Nat.add_comm,
    ← List.range'_append FATURES_START_ID s.featuresMapFrontend.length
      s.bufferMapFrontend.features2add.length 1] at h1
  exact (List.append_inj h1 (by simp)).1

theorem FeaturesMap.idsConsecutive_getElem? (FATURES_START_ID : Nat) (s : FeaturesMap)
    (h : s.idsConsecutive FATURES_START_ID) (k : Nat) (f : MapFeature)
    (hf : s.featuresMapFrontend[k]? = some f) : f.id = FATURES_START_ID + k := by
  have hlive := FeaturesMap.idsConsecutive_live FATURES_START_ID s h
  have hk : k < s.featuresMapFrontend.length := (List.getElem?_eq_some_iff.mp hf).1
  have h1 : (s.featuresMapFrontend.map (fun f => f.id))[k]? = some f.id := by
    rw [List.getElem?_map, hf]
    rfl
  rw [hlive, List.getElem?_range' _ _ hk] at h1
  simp only [Option.some.injEq, one_mul] at h1
  exact h1.symm

/-! ## Sensor pose -/

/-- C1, evaluated on the code: the claim says that `getSensorPose(i)` for
`lastOptimizedPose < i` composes the odometry increments up to `i` and no further.
With three poses one unit apart and `lastOptimizedPose = 0`, the claimed value for
`i = 1` is `trajectory[0].pose * odo[1]`, a translation by 2; the loop of the source
runs to the end of `odoMeasurements`, and `getSensorPose(1)` is a translation by 3. -/
theorem getSensorPose_composes_past_requested_pose :
    threePoses.lastOptimizedPose = 0 ∧ threePoses.camTrajectory.length = 3 ∧
      (threePoses.camTrajectory[0]?.bind fun v =>
        threePoses.odoMeasurements[1]?.map fun odo => v.pose * odo) = some (translate 2 0 0) ∧
      threePoses.getSensorPose 1 = some (translate 3 0 0) := by
  decide

/-- C2, evaluated on the code: the claim says that `getSensorPose(i)` for
`i ≤ lastOptimizedPose`, also for `i = lastOptimizedPose`, is the stored pose
`trajectory[i].pose`, whatever the odometry.  With three poses one unit apart, of
which the optimizer has moved pose 1 to `(10, 0, 0)`, `lastOptimizedPose` is 1 and
the stored pose 1 is the translation by 10, but `getSensorPose(1)` is the
translation by 11: the test of the source is `poseId < lastOptimizedPose`, and the
other branch multiplies every odometry increment after `lastOptimizedPose` onto the
stored pose.  The same happens on a map without any optimized pose, where
`lastOptimizedPose` is 0: `getSensorPose(0)` is the last pose, not the stored
pose 0.  Below `lastOptimizedPose` the stored pose is returned. -/
theorem getSensorPose_at_lastOptimizedPose_adds_odometry :
    (threePosesOptimized.lastOptimizedPose = 1 ∧
      threePosesOptimized.camTrajectory[1]?.map (fun v => v.pose) = some (translate 10 0 0) ∧
      threePosesOptimized.getSensorPose 1 = some (translate 11 0 0) ∧
      threePosesOptimized.getSensorPose 0 =
        threePosesOptimized.camTrajectory[0]?.map (fun v => v.pose)) ∧
    (twoPoses.lastOptimizedPose = 0 ∧
      twoPoses.camTrajectory[0]?.map (fun v => v.pose) = some Mat34.Identity ∧
      twoPoses.getSensorPose 0 = some (translate 1 0 0)) := by
  decide

/-- C3: after the pose increments `dT_0, ..., dT_(n-1)` (`n ≥ 1`) were passed to
`addNewPose` on a fresh map, possibly between other calls but with no optimized pose
written back, `getSensorPose()` for the last pose returns the product
`dT_0 * dT_1 * ... * dT_(n-1)`, which is also the stored pose of the last trajectory
entry. -/
theorem getSensorPose_last_is_product_of_increments (FATURES_START_ID : Nat)
    (sensorModel : DepthSensorModel) (config : Config) (calls : List Call) (s : FeaturesMap)
    (hrun : (FeaturesMap.new FATURES_START_ID config).run FATURES_START_ID sensorModel calls =
      some s)
    (hopt : ∀ c ∈ calls, c.appliesPoses = false) (hne : posesOf calls ≠ []) :
    s.getSensorPose (-1) = some (composeAll (posesOf calls)) ∧
      (s.camTrajectory.getLast?).map (fun v => v.pose) = some (composeAll (posesOf calls)) := by
  have h0 : (FeaturesMap.new FATURES_START_ID config).tracksPoses [] :=
    ⟨rfl, rfl, rfl, rfl, rfl, fun h => absurd rfl h⟩
  have hinv := FeaturesMap.run_tracksPoses FATURES_START_ID sensorModel calls [] _ s h0 hrun hopt
  rw [List.nil_append] at hinv
  obtain ⟨hlast0, hlen, hn, hodo, hhead, hlast⟩ := hinv
  refine ⟨?_, hlast hne⟩
  cases hd : posesOf calls with
  | nil => exact absurd hd hne
  | cons d rest =>
    rw [hd] at hn hodo hhead
    have hpos : 0 < s.camTrajectory.length := by
      rw [hn]
      exact Nat.succ_pos _
    obtain ⟨v, hv, hvd⟩ : ∃ v, s.camTrajectory[0]? = some v ∧ v.pose = d := by
      rw [List.head?_eq_getElem?] at hhead
      cases hv : s.camTrajectory[0]? with
      | none => rw [hv] at hhead; cases hhead
      | some v =>
        rw [hv] at hhead
        simp only [Option.map_some', List.head?_cons, Option.some.injEq] at hhead
        exact ⟨v, rfl, hhead⟩
    have hnot : ¬ ((s.camTrajectory.length : Int) - 1 < 0) := by omega
    simp only [FeaturesMap.getSensorPose, hlast0, Int.reduceNeg, Int.reduceLT, if_true,
      Nat.cast_zero, hnot, if_false, hv, Nat.zero_add, hodo, List.drop_succ_cons, List.drop_zero,
      hvd, composeAll]

/-- C3, on the scenario of the spec: three calls of `addNewPose` with
`translate(1, 0, 0)` give a sensor pose, and a last stored pose, with translation
`(3, 0, 0)`. -/
theorem getSensorPose_three_steps :
    (sampleMap.run sampleStartId sampleSensor [stepRight 0, stepRight 1, stepRight 2] =
        some threePoses ∧
      (∀ c ∈ [stepRight 0, stepRight 1, stepRight 2], c.appliesPoses = false) ∧
      posesOf [stepRight 0, stepRight 1, stepRight 2] ≠ []) ∧
    (threePoses.getSensorPose (-1) = some (translate 3 0 0) ∧
      (threePoses.camTrajectory.getLast?).map (fun v => v.pose) = some (translate 3 0 0)) :=
  ⟨⟨by decide, by decide, by decide⟩,
    getSensorPose_last_is_product_of_increments sampleStartId sampleSensor sampleConfig
      [stepRight 0, stepRight 1, stepRight 2] threePoses (by decide) (by decide) (by decide)⟩

/-! ## Adding a pose -/

/-- C4: on an empty trajectory `addNewPose(dT, ...)` appends the identity to
`odoMeasurements` and a pose vertex with pose `dT`; on a non-empty trajectory it
appends `dT` to `odoMeasurements` and a pose vertex whose pose is the pose of the
previous last entry times `dT`; in both cases the same vertex is handed to the pose
graph.  Hence, when the odometry sequence is as long as the trajectory (which holds
in every state reached from a fresh map, `FeaturesMap.run_odoMeasurements_length`),
right after inserting pose `i > 0` the stored poses satisfy
`trajectory[i].pose = trajectory[i-1].pose * odo[i]`. -/
theorem addNewPose_appends_composed_pose (s : FeaturesMap) (dT : Mat34) (timestamp : Int)
    (image depthImage : CvMat) :
    (s.camTrajectory = [] →
      (s.addNewPose dT timestamp image depthImage).1.odoMeasurements =
          s.odoMeasurements ++ [Mat34.Identity] ∧
        (s.addNewPose dT timestamp image depthImage).1.camTrajectory =
          [{ vertexId := 0, pose := dT, timestamp := timestamp }] ∧
        (s.addNewPose dT timestamp image depthImage).1.poseGraph.vertexPoses =
          s.poseGraph.vertexPoses ++ [{ vertexId := 0, pose := dT, timestamp := timestamp }]) ∧
    (∀ back, s.camTrajectory.getLast? = some back →
      (s.addNewPose dT timestamp image depthImage).1.odoMeasurements =
          s.odoMeasurements ++ [dT] ∧
        (s.addNewPose dT timestamp image depthImage).1.camTrajectory =
          s.camTrajectory ++ [{ vertexId := s.camTrajectory.length, pose := back.pose * dT,
                                timestamp := timestamp }] ∧
        (s.addNewPose dT timestamp image depthImage).1.poseGraph.vertexPoses =
          s.poseGraph.vertexPoses ++ [{ vertexId := s.camTrajectory.length,
                                        pose := back.pose * dT, timestamp := timestamp }]) ∧
    (s.odoMeasurements.length = s.camTrajectory.length → 0 < s.camTrajectory.length →
      ∃ previous inserted odo,
        (s.addNewPose dT timestamp image depthImage).1.camTrajectory[
          (s.addNewPose dT timestamp image depthImage).2 - 1]? = some previous ∧
        (s.addNewPose dT timestamp image depthImage).1.camTrajectory[
          (s.addNewPose dT timestamp image depthImage).2]? = some inserted ∧
        (s.addNewPose dT timestamp image depthImage).1.odoMeasurements[
          (s.addNewPose dT timestamp image depthImage).2]? = some odo ∧
        inserted.pose = previous.pose * odo ∧
        (s.addNewPose dT timestamp image depthImage).1.poseGraph.vertexPoses.getLast? =
          some inserted) := by
  refine ⟨?_, ?_, ?_⟩
  · intro h
    simp [FeaturesMap.addNewPose, h, PoseGraph.addVertexPose]
  · intro back h
    simp [FeaturesMap.addNewPose, h, PoseGraph.addVertexPose]
  · intro hlen hpos
    cases hb : s.camTrajectory.getLast? with
    | none =>
      rw [List.getLast?_eq_none_iff.mp hb] at hpos
      exact absurd hpos (Nat.lt_irrefl 0)
    | some back =>
      have hprev : s.camTrajectory[s.camTrajectory.length - 1]? = some back := by
        rw [← List.getLast?_eq_getElem?]
        exact hb
      refine ⟨back, VertexSE3.mk s.camTrajectory.length (back.pose * dT) timestamp, dT,
        ?_, ?_, ?_, rfl, ?_⟩
      · simp only [FeaturesMap.addNewPose, hb]
        rw [List.getElem?_append_left (by omega)]
        exact hprev
      · simp only [FeaturesMap.addNewPose, hb]
        rw [List.getElem?_append_right (Nat.le_refl _)]
        simp
      · simp only [FeaturesMap.addNewPose, hb]
        rw [← hlen, List.getElem?_append_right (Nat.le_refl _)]
        simp
      · simp only [FeaturesMap.addNewPose, hb, PoseGraph.addVertexPose]
        exact List.getLast?_concat _

/-- C4 at a concrete state: a third pose is added to a trajectory of two. -/
theorem addNewPose_appends_composed_pose_example :
    (twoPoses.odoMeasurements.length = twoPoses.camTrajectory.length ∧
      0 < twoPoses.camTrajectory.length) ∧
    ∃ previous inserted odo,
      (twoPoses.addNewPose (translate 0 2 0) 5 sampleImage sampleImage).1.camTrajectory[
        (twoPoses.addNewPose (translate 0 2 0) 5 sampleImage sampleImage).2 - 1]? =
          some previous ∧
      (twoPoses.addNewPose (translate 0 2 0) 5 sampleImage sampleImage).1.camTrajectory[
        (twoPoses.addNewPose (translate 0 2 0) 5 sampleImage sampleImage).2]? = some inserted ∧
      (twoPoses.addNewPose (translate 0 2 0) 5 sampleImage sampleImage).1.odoMeasurements[
        (twoPoses.addNewPose (translate 0 2 0) 5 sampleImage sampleImage).2]? = some odo ∧
      inserted.pose = previous.pose * odo ∧
      (twoPoses.addNewPose (translate 0 2 0) 5 sampleImage sampleImage).1.poseGraph.vertexPoses.getLast? =
        some inserted :=
  ⟨⟨by decide, by decide⟩,
    (addNewPose_appends_composed_pose twoPoses (translate 0 2 0) 5 sampleImage sampleImage).2.2
      (by decide) (by decide)⟩

/-! ## Reconciliation -/

/-- C5, evaluated on the code: the claim says that when two optimizer passes stage a
position for the same landmark before a drain succeeds, the drain leaves the
landmark at the position of the later pass.  Here the landmark sits at `(0, 0, 1)`;
the first pass stages `(5, 5, 5)` and fails to acquire the map lock, the second pass
stages `(9, 9, 9)` and drains.  Each pass inserts its snapshot at the beginning of
`features2update` and the drain applies the queue front to back, so the landmark
ends at `(5, 5, 5)`, the position of the earlier pass. -/
theorem drain_applies_earlier_pass_last :
    (sampleMap.run sampleStartId sampleSensor
        [originPose, .addFeatures [sampleFeature] 0 true]).map
      (fun s =>
        (s.featuresMapFrontend.map (fun f => (f.id, f.position)),
          ((s.optimizePass [optimizedAt sampleStartId 5 5 5] false []).optimizePass
            [optimizedAt sampleStartId 9 9 9] true []).featuresMapFrontend.map
              (fun f => (f.id, f.position)),
          ((s.optimizePass [optimizedAt sampleStartId 5 5 5] false []).optimizePass
            [optimizedAt sampleStartId 9 9 9] true []).bufferMapFrontend.features2update)) =
      some ([(sampleStartId, { x := 0, y := 0, z := 1 })],
        [(sampleStartId, { x := 5, y := 5, z := 5 })], []) := by
  decide

/-- C6: a drain that acquires the lock keeps every landmark of the live map at its
index, so in the same order and number, followed by the staged additions; the
landmark keeps its id, u, v, posesIds and descriptors, and keeps its position too
unless its id occurs in `features2update`. -/
theorem updateMap_keeps_existing_landmarks (modifier : MapModifier)
    (featuresMap : List MapFeature) (k : Nat) (f : MapFeature)
    (h : featuresMap[k]? = some f) :
    (updateMap true modifier featuresMap).2.length =
        featuresMap.length + modifier.features2add.length ∧
      ∃ f1, (updateMap true modifier featuresMap).2[k]? = some f1 ∧ f1.id = f.id ∧
        f1.u = f.u ∧ f1.v = f.v ∧ f1.posesIds = f.posesIds ∧ f1.descriptors = f.descriptors ∧
        ((∀ g ∈ modifier.features2update, g.id ≠ f.id) → f1.position = f.position) := by
  rw [updateMap_true]
  refine ⟨by simp [foldl_updateFeature_length], ?_⟩
  apply foldl_updateFeature_getElem?
  rw [List.getElem?_append_left (List.getElem?_eq_some_iff.mp h).1]
  exact h

/-- C6 at a concrete buffer: landmark 6 is not in `features2update`. -/
theorem updateMap_keeps_existing_landmarks_example :
    sampleLive[1]? = some (MapFeature.mk 6 30 40 { x := 0, y := 0, z := 2 } [1] []) ∧
      ((updateMap true sampleModifier sampleLive).2.length =
          sampleLive.length + sampleModifier.features2add.length ∧
        ∃ f1, (updateMap true sampleModifier sampleLive).2[1]? = some f1 ∧ f1.id = 6 ∧
          f1.u = 30 ∧ f1.v = 40 ∧ f1.posesIds = [1] ∧ f1.descriptors = [] ∧
          ((∀ g ∈ sampleModifier.features2update, g.id ≠ 6) →
            f1.position = { x := 0, y := 0, z := 2 })) :=
  ⟨by decide, updateMap_keeps_existing_landmarks sampleModifier sampleLive 1
    (MapFeature.mk 6 30 40 { x := 0, y := 0, z := 2 } [1] []) (by decide)⟩

/-! ## Adding features -/

/-- C7, evaluated on the code: the claim says that every edge added by
`addFeatures(features, poseId)` starts at `poseId`.  With two poses in the
trajectory and `poseId = 0`, the new landmark records pose 0 in `posesIds`, but
the edge handed to the graph starts at pose 1: the source builds it with
`camTrajSize - 1`, the last pose. -/
theorem addFeatures_edge_starts_at_last_pose :
    (sampleMap.run sampleStartId sampleSensor
        [originPose, stepRight 1, .addFeatures [sampleFeature] 0 false]).map
      (fun s =>
        (s.camTrajectory.length,
          s.bufferMapFrontend.features2add.map (fun f => (f.id, f.posesIds)),
          s.poseGraph.edges3D.map (fun e => (e.fromVertexId, e.toVertexId)))) =
      some (2, [(sampleStartId, [0])], [(1, sampleStartId)]) := by
  decide

/-- C8, evaluated on the code: the claim says that every pose id in the `posesIds` of
a landmark is smaller than the trajectory length, also when `addFeatures` is called
with a negative `poseId` for the last pose.  With one pose in the trajectory,
`addFeatures(features, -1)` stages a landmark whose `posesIds` is `[4294967295]`:
the source pushes `poseId` itself, converted to `unsigned int`. -/
theorem addFeatures_records_negative_poseId :
    (sampleMap.run sampleStartId sampleSensor
        [originPose, .addFeatures [sampleFeature] (-1) false]).map
      (fun s =>
        (s.camTrajectory.length, s.bufferMapFrontend.features2add.map (fun f => f.posesIds))) =
      some (1, [[4294967295]]) := by
  decide

/-! ## Landmark ids and positions -/

/-- C9: in every state reached from a fresh map by calls of the map, every landmark
returned by `getAllFeatures` has an id of at least `FATURES_START_ID`, and no two
returned landmarks have the same id. -/
theorem getAllFeatures_ids_unique (FATURES_START_ID : Nat) (sensorModel : DepthSensorModel)
    (config : Config) (calls : List Call) (s : FeaturesMap)
    (hrun : (FeaturesMap.new FATURES_START_ID config).run FATURES_START_ID sensorModel calls =
      some s) (tryLock : Bool) :
    (∀ f ∈ (s.getAllFeatures tryLock).1, FATURES_START_ID ≤ f.id) ∧
      ((s.getAllFeatures tryLock).1.map (fun f => f.id)).Nodup := by
  have hinv := FeaturesMap.run_idsConsecutive FATURES_START_ID sensorModel config calls s hrun
  have hlive := FeaturesMap.idsConsecutive_live FATURES_START_ID s hinv
  constructor
  · intro f hf
    have hmem : f.id ∈ s.featuresMapFrontend.map (fun f => f.id) :=
      List.mem_map_of_mem _ hf
    rw [hlive] at hmem
    exact (List.mem_range'_1.mp hmem).1
  · show (s.featuresMapFrontend.map (fun f => f.id)).Nodup
    rw [hlive]
    exact List.nodup_range' _ _

/-- C9 at a concrete state: two landmarks added from the first pose and drained. -/
theorem getAllFeatures_ids_unique_example :
    (FeaturesMap.new sampleStartId sampleConfig).run sampleStartId sampleSensor
        twoLandmarksCalls = some twoLandmarks ∧
      ((∀ f ∈ (twoLandmarks.getAllFeatures false).1, sampleStartId ≤ f.id) ∧
        ((twoLandmarks.getAllFeatures false).1.map (fun f => f.id)).Nodup) :=
  ⟨by decide, getAllFeatures_ids_unique sampleStartId sampleSensor sampleConfig
    twoLandmarksCalls twoLandmarks (by decide) false⟩

/-- C10: in every state reached from a fresh map by calls of the map, and for every
landmark returned by `getAllFeatures`, `getFeaturePosition` at the id of that
landmark returns its position. -/
theorem getFeaturePosition_eq_position (FATURES_START_ID : Nat)
    (sensorModel : DepthSensorModel) (config : Config) (calls : List Call) (s : FeaturesMap)
    (hrun : (FeaturesMap.new FATURES_START_ID config).run FATURES_START_ID sensorModel calls =
      some s) (tryLock : Bool) (f : MapFeature) (hf : f ∈ (s.getAllFeatures tryLock).1) :
    s.getFeaturePosition FATURES_START_ID f.id = some f.position := by
  have hinv := FeaturesMap.run_idsConsecutive FATURES_START_ID sensorModel config calls s hrun
  obtain ⟨k, hk⟩ := List.getElem?_of_mem hf
  have hid := FeaturesMap.idsConsecutive_getElem? FATURES_START_ID s hinv k f hk
  have hidx : featureIndex FATURES_START_ID f.id = some k := by
    unfold featureIndex
    rw [hid, if_neg (by omega)]
    simp
  have hk1 : s.featuresMapFrontend[k]? = some f := hk
  simp only [FeaturesMap.getFeaturePosition, hidx, hk1, Option.map_some']

/-- C10 at a concrete state: the second of two landmarks, with id
`FATURES_START_ID + 1`. -/
theorem getFeaturePosition_eq_position_example :
    ((FeaturesMap.new sampleStartId sampleConfig).run sampleStartId sampleSensor
        twoLandmarksCalls = some twoLandmarks ∧
      MapFeature.mk (sampleStartId + 1) 320 240 { x := 0, y := 0, z := 1 } [0] [] ∈
        (twoLandmarks.getAllFeatures true).1) ∧
    twoLandmarks.getFeaturePosition sampleStartId (sampleStartId + 1) =
      some { x := 0, y := 0, z := 1 } :=
  ⟨⟨by decide, by decide⟩,
    getFeaturePosition_eq_position sampleStartId sampleSensor sampleConfig twoLandmarksCalls
      twoLandmarks (by decide) true
      (MapFeature.mk (sampleStartId + 1) 320 240 { x := 0, y := 0, z := 1 } [0] [])
      (by decide)⟩

/-! ## Drain outcome -/

/-- C16: after an `updateMap` call that acquires the map lock both `features2add` and
`features2update` of the modifier are empty, so `addFeatures()` and
`updateFeatures()` of the modifier both report false. -/
theorem updateMap_acquired_empties_queues (modifier : MapModifier)
    (featuresMap : List MapFeature) (s : FeaturesMap) :
    (updateMap true modifier featuresMap).1.features2add = [] ∧
      (updateMap true modifier featuresMap).1.features2update = [] ∧
      (updateMap true modifier featuresMap).1.addFeatures = false ∧
      (updateMap true modifier featuresMap).1.updateFeatures = false ∧
      (s.updateMap true).bufferMapFrontend = { features2add := [], features2update := [] } := by
  simp [updateMap_true, FeaturesMap.updateMap, MapModifier.addFeatures,
    MapModifier.updateFeatures]

/-- C17: an `updateMap` call whose `try_lock` fails returns without changing the live
landmark vector, `features2add` or `features2update`; the whole state is as
before. -/
theorem updateMap_not_acquired_changes_nothing (modifier : MapModifier)
    (featuresMap : List MapFeature) (s : FeaturesMap) :
    (updateMap false modifier featuresMap).2 = featuresMap ∧
      (updateMap false modifier featuresMap).1.features2add = modifier.features2add ∧
      (updateMap false modifier featuresMap).1.features2update = modifier.features2update ∧
      s.updateMap false = s := by
  simp [updateMap_false, FeaturesMap.updateMap]

/-! ## Writing optimized poses back -/

theorem FeaturesMap.updatePose_getElem? (s : FeaturesMap) (p : VertexSE3) (k : Nat)
    (v : VertexSE3) (h : s.camTrajectory[k]? = some v) :
    (s.updatePose p).camTrajectory[k]? =
      some (if v.vertexId = p.vertexId then { v with pose := p.pose } else v) := by
  simp [FeaturesMap.updatePose, h]

/-- What a run of `updatePose` over `poses` does to the trajectory entry at index `k`. -/
theorem foldl_updatePose_getElem? (poses : List VertexSE3) (s : FeaturesMap) (k : Nat)
    (v : VertexSE3) (h : s.camTrajectory[k]? = some v) :
    ∃ v1, (poses.foldl FeaturesMap.updatePose s).camTrajectory[k]? = some v1 ∧
      v1.vertexId = v.vertexId ∧ v1.timestamp = v.timestamp ∧
      ((∀ p ∈ poses, p.vertexId ≠ v.vertexId) → v1.pose = v.pose) := by
  induction poses generalizing s v with
  | nil => exact ⟨v, h, rfl, rfl, fun _ => rfl⟩
  | cons p rest ih =>
    obtain ⟨v1, h1, hid, hts, hpose⟩ := ih (s.updatePose p) _
      (FeaturesMap.updatePose_getElem? s p k v h)
    refine ⟨v1, by simpa using h1, ?_, ?_, ?_⟩
    · rw [hid]; split <;> rfl
    · rw [hts]; split <;> rfl
    · intro hne
      have hp : ¬ v.vertexId = p.vertexId := fun e => hne p (List.mem_cons_self _ _) e.symm
      have hrest : ∀ q ∈ rest, q.vertexId ≠
          (if v.vertexId = p.vertexId then { v with pose := p.pose } else v).vertexId := by
        intro q hq
        rw [if_neg hp]
        exact hne q (List.mem_cons_of_mem _ hq)
      rw [hpose hrest, if_neg hp]

theorem foldl_updatePose_lastOptimizedPose (poses : List VertexSE3) (s : FeaturesMap) :
    (poses.foldl FeaturesMap.updatePose s).lastOptimizedPose =
      (poses.map (fun p => p.vertexId)).foldl max s.lastOptimizedPose := by
  induction poses generalizing s with
  | nil => rfl
  | cons p rest ih =>
    rw [List.foldl_cons, ih, List.map_cons, List.foldl_cons]
    congr 1
    show (if p.vertexId > s.lastOptimizedPose then p.vertexId else s.lastOptimizedPose) = _
    rw [Nat.max_def]
    by_cases h : p.vertexId > s.lastOptimizedPose
    · rw [if_pos h, if_pos (Nat.le_of_lt h)]
    · rw [if_neg h]
      by_cases h2 : s.lastOptimizedPose ≤ p.vertexId
      · rw [if_pos h2]
        omega
      · rw [if_neg h2]

theorem foldl_updatePose_vertexIds (poses : List VertexSE3) (s : FeaturesMap) :
    (poses.foldl FeaturesMap.updatePose s).camTrajectory.map (fun v => v.vertexId) =
      s.camTrajectory.map (fun v => v.vertexId) := by
  induction poses generalizing s with
  | nil => rfl
  | cons p rest ih =>
    rw [List.foldl_cons, ih]
    simp only [FeaturesMap.updatePose, List.map_map]
    apply List.map_congr_left
    intro v _
    simp only [Function.comp]
    split <;> rfl

/-- C12: after `updateCamTrajectory(poses)` the value of `lastOptimizedPose` is the
maximum of its old value and all vertexIds of the snapshot; the trajectory keeps
its length and the odometry sequence is unchanged; the entry at an index keeps its
vertexId and timestamp; an entry whose vertexId does not occur in the snapshot is
unchanged, and an entry whose vertexId occurs in the snapshot has the pose of the
snapshot entry with that vertexId (of the last one, should the snapshot name the
vertexId more than once). -/
theorem updateCamTrajectory_writes_snapshot (s : FeaturesMap) (poses : List VertexSE3) :
    (s.updateCamTrajectory poses).lastOptimizedPose =
        (poses.map (fun p => p.vertexId)).foldl max s.lastOptimizedPose ∧
      (s.updateCamTrajectory poses).camTrajectory.length = s.camTrajectory.length ∧
      (s.updateCamTrajectory poses).odoMeasurements = s.odoMeasurements ∧
      ∀ (k : Nat) (v : VertexSE3), s.camTrajectory[k]? = some v →
        ∃ v1, (s.updateCamTrajectory poses).camTrajectory[k]? = some v1 ∧
          v1.vertexId = v.vertexId ∧ v1.timestamp = v.timestamp ∧
          ((∀ p ∈ poses, p.vertexId ≠ v.vertexId) → v1 = v) ∧
          (∀ before p after, poses = before ++ p :: after → p.vertexId = v.vertexId →
            (∀ q ∈ after, q.vertexId ≠ v.vertexId) → v1.pose = p.pose) := by
  refine ⟨foldl_updatePose_lastOptimizedPose poses s, (foldl_updatePose_lengths poses s).1,
    (foldl_updatePose_lengths poses s).2, ?_⟩
  intro k v h
  obtain ⟨v1, h1, hid, hts, hpose⟩ := foldl_updatePose_getElem? poses s k v h
  refine ⟨v1, h1, hid, hts, ?_, ?_⟩
  · intro hne
    have hp := hpose hne
    cases v1
    cases v
    simp only at hid hts hp
    subst hid hts hp
    rfl
  · intro before p after hposes hpid hafter
    subst hposes
    obtain ⟨v2, h2, hid2, _, _⟩ := foldl_updatePose_getElem? before s k v h
    have h3 := FeaturesMap.updatePose_getElem? _ p k v2 h2
    rw [if_pos (hid2.trans hpid.symm)] at h3
    obtain ⟨v4, h4, _, _, hpose4⟩ := foldl_updatePose_getElem? after _ k _ h3
    have hsame : (before ++ p :: after).foldl FeaturesMap.updatePose s =
        after.foldl FeaturesMap.updatePose ((before.foldl FeaturesMap.updatePose s).updatePose p) := by
      rw [List.foldl_append, List.foldl_cons]
    have h14 : v1 = v4 := by
      have h5 := h1
      unfold FeaturesMap.updateCamTrajectory at h5
      rw [hsame, h4] at h5
      exact (Option.some.inj h5).symm
    rw [h14]
    exact hpose4 (fun q hq => by
      show q.vertexId ≠ v2.vertexId
      rw [hid2]
      exact hafter q hq)

/-- C12 at a concrete snapshot: pose 1 of three poses is moved to `(10, 0, 0)`. -/
theorem updateCamTrajectory_writes_snapshot_example :
    (threePoses.camTrajectory[1]? = some (VertexSE3.mk 1 (translate 2 0 0) 1) ∧
      [VertexSE3.mk 1 (translate 10 0 0) 1] = [] ++ VertexSE3.mk 1 (translate 10 0 0) 1 :: [] ∧
      (VertexSE3.mk 1 (translate 10 0 0) 1).vertexId = (VertexSE3.mk 1 (translate 2 0 0) 1).vertexId ∧
      ∀ q ∈ ([] : List VertexSE3), q.vertexId ≠ (VertexSE3.mk 1 (translate 2 0 0) 1).vertexId) ∧
    threePosesOptimized.lastOptimizedPose = 1 ∧
    threePosesOptimized.camTrajectory.map (fun v => v.pose) =
      [translate 1 0 0, translate 10 0 0, translate 3 0 0] ∧
    ∃ v1, (threePoses.updateCamTrajectory [VertexSE3.mk 1 (translate 10 0 0) 1]).camTrajectory[1]? =
        some v1 ∧ v1.pose = translate 10 0 0 :=
  ⟨⟨by decide, rfl, rfl, by simp⟩, by decide, by decide,
    match (updateCamTrajectory_writes_snapshot threePoses
        [VertexSE3.mk 1 (translate 10 0 0) 1]).2.2.2 1 (VertexSE3.mk 1 (translate 2 0 0) 1)
        (by decide) with
    | ⟨v1, h1, _, _, _, hlast⟩ =>
      ⟨v1, h1, hlast [] (VertexSE3.mk 1 (translate 10 0 0) 1) [] rfl rfl (by simp)⟩⟩


/-! ## Pose ids -/

section PoseIds

variable (FATURES_START_ID : Nat) (sensorModel : DepthSensorModel)

/-- The trajectory grows by one entry per `addNewPose` call and by nothing else. -/
theorem FeaturesMap.run_camTrajectory_length (calls : List Call) (s s1 : FeaturesMap)
    (hrun : s.run FATURES_START_ID sensorModel calls = some s1) :
    s1.camTrajectory.length = s.camTrajectory.length + (posesOf calls).length := by
  induction calls generalizing s with
  | nil =>
    simp only [FeaturesMap.run, List.foldlM_nil] at hrun
    cases hrun
    rfl
  | cons c rest ih =>
    simp only [FeaturesMap.run, List.foldlM_cons] at hrun
    cases hc : s.call FATURES_START_ID sensorModel c with
    | none => rw [hc] at hrun; cases hrun
    | some s2 =>
      rw [hc] at hrun
      have h2 := ih s2 hrun
      by_cases hp : ∃ dT t image depthImage, c = .addNewPose dT t image depthImage
      · obtain ⟨dT, t, image, depthImage, rfl⟩ := hp
        simp only [FeaturesMap.call, Option.some.injEq] at hc
        subst hc
        have hlen : (s.addNewPose dT t image depthImage).1.camTrajectory.length =
            s.camTrajectory.length + 1 := by
          unfold FeaturesMap.addNewPose
          split <;> simp
        rw [h2, hlen]
        simp only [posesOf, List.length_cons]
        omega
      · have hne : ∀ dT t image depthImage, c ≠ .addNewPose dT t image depthImage :=
          fun dT t image depthImage e => hp ⟨dT, t, image, depthImage, e⟩
        have hposes : posesOf (c :: rest) = posesOf rest := by
          cases c with
          | addNewPose dT t image depthImage => exact absurd rfl (hne dT t image depthImage)
          | _ => rfl
        have hsame : s2.camTrajectory.length = s.camTrajectory.length := by
          cases hopt : c.appliesPoses with
          | false =>
            rw [(FeaturesMap.call_trajectory FATURES_START_ID sensorModel s s2 c hc hne hopt).1]
          | true =>
            cases c with
            | updateCamTrajectory poses =>
              simp only [FeaturesMap.call, Option.some.injEq] at hc
              subst hc
              exact (foldl_updatePose_lengths poses s).1
            | _ => simp [Call.appliesPoses] at hopt
        rw [h2, hsame, hposes]

/-- In every state reached from a fresh map the vertexId of a trajectory entry is its
index. -/
theorem FeaturesMap.run_vertexIds (config : Config) (calls : List Call) (s : FeaturesMap)
    (hrun : (FeaturesMap.new FATURES_START_ID config).run FATURES_START_ID sensorModel calls =
      some s) :
    s.camTrajectory.map (fun v => v.vertexId) = List.range s.camTrajectory.length := by
  refine FeaturesMap.run_induction FATURES_START_ID sensorModel
    (fun s => s.camTrajectory.map (fun v => v.vertexId) = List.range s.camTrajectory.length)
    ?_ calls (FeaturesMap.new FATURES_START_ID config) s (by simp [FeaturesMap.new]) hrun
  intro s c s1 h hc
  by_cases hp : ∃ dT t image depthImage, c = .addNewPose dT t image depthImage
  · obtain ⟨dT, t, image, depthImage, rfl⟩ := hp
    simp only [FeaturesMap.call, Option.some.injEq] at hc
    subst hc
    unfold FeaturesMap.addNewPose
    split <;> simp [h, List.range_succ]
  · have hne : ∀ dT t image depthImage, c ≠ .addNewPose dT t image depthImage :=
      fun dT t image depthImage e => hp ⟨dT, t, image, depthImage, e⟩
    cases hopt : c.appliesPoses with
    | false =>
      rw [(FeaturesMap.call_trajectory FATURES_START_ID sensorModel s s1 c hc hne hopt).1]
      exact h
    | true =>
      cases c with
      | updateCamTrajectory poses =>
        simp only [FeaturesMap.call, Option.some.injEq] at hc
        subst hc
        unfold FeaturesMap.updateCamTrajectory
        rw [foldl_updatePose_vertexIds, (foldl_updatePose_lengths poses s).1]
        exact h
      | _ => simp [Call.appliesPoses] at hopt

end PoseIds

/-- C15: in every state reached from a fresh map, `addNewPose` returns the trajectory
length `n` before the call, which is the number of earlier `addNewPose` calls, so
successive calls return 0, 1, 2, ...; after the call the trajectory and
`odoMeasurements` both have length `n + 1`, the trajectory is the old one followed
by a new entry with vertexId `n`, and every trajectory entry has its index as
vertexId. -/
theorem addNewPose_returns_next_index (FATURES_START_ID : Nat) (sensorModel : DepthSensorModel)
    (config : Config) (calls : List Call) (s : FeaturesMap)
    (hrun : (FeaturesMap.new FATURES_START_ID config).run FATURES_START_ID sensorModel calls =
      some s)
    (dT : Mat34) (timestamp : Int) (image depthImage : CvMat) :
    (s.addNewPose dT timestamp image depthImage).2 = s.camTrajectory.length ∧
      (s.addNewPose dT timestamp image depthImage).2 = (posesOf calls).length ∧
      (s.addNewPose dT timestamp image depthImage).1.camTrajectory.length =
        s.camTrajectory.length + 1 ∧
      (s.addNewPose dT timestamp image depthImage).1.odoMeasurements.length =
        s.camTrajectory.length + 1 ∧
      (∃ v, (s.addNewPose dT timestamp image depthImage).1.camTrajectory =
          s.camTrajectory ++ [v] ∧ v.vertexId = s.camTrajectory.length) ∧
      ∀ (k : Nat) (v : VertexSE3),
        (s.addNewPose dT timestamp image depthImage).1.camTrajectory[k]? = some v →
          v.vertexId = k := by
  have hodo := FeaturesMap.run_odoMeasurements_length FATURES_START_ID sensorModel config calls
    s hrun
  have hlen := FeaturesMap.run_camTrajectory_length FATURES_START_ID sensorModel calls _ s hrun
  have hrun1 : (FeaturesMap.new FATURES_START_ID config).run FATURES_START_ID sensorModel
      (calls ++ [.addNewPose dT timestamp image depthImage]) =
      some (s.addNewPose dT timestamp image depthImage).1 := by
    simp only [FeaturesMap.run] at hrun ⊢
    rw [List.foldlM_append, hrun]
    rfl
  have hids := FeaturesMap.run_vertexIds FATURES_START_ID sensorModel config _ _ hrun1
  have hret : (s.addNewPose dT timestamp image depthImage).2 = s.camTrajectory.length := by
    unfold FeaturesMap.addNewPose
    split <;> rfl
  refine ⟨hret, ?_, ?_, ?_, ?_, ?_⟩
  · rw [hret, hlen]
    simp [FeaturesMap.new]
  · unfold FeaturesMap.addNewPose
    split <;> simp
  · unfold FeaturesMap.addNewPose
    split <;> simp [hodo]
  · unfold FeaturesMap.addNewPose
    split
    · exact ⟨_, rfl, rfl⟩
    · exact ⟨_, rfl, rfl⟩
  · intro k v hk
    have h1 : ((s.addNewPose dT timestamp image depthImage).1.camTrajectory.map
        (fun v => v.vertexId))[k]? = some v.vertexId := by
      rw [List.getElem?_map, hk]
      rfl
    rw [hids] at h1
    have hklt : k < (s.addNewPose dT timestamp image depthImage).1.camTrajectory.length :=
      (List.getElem?_eq_some_iff.mp hk).1
    rw [List.getElem?_range hklt] at h1
    exact (Option.some.inj h1).symm

/-- C15 at a concrete state: the third call of `addNewPose` returns 2. -/
theorem addNewPose_returns_next_index_example :
    (FeaturesMap.new sampleStartId sampleConfig).run sampleStartId sampleSensor
        [originPose, stepRight 1] = some twoPoses ∧
      (twoPoses.addNewPose (translate 0 2 0) 5 sampleImage sampleImage).2 = 2 :=
  ⟨by decide,
    (addNewPose_returns_next_index sampleStartId sampleSensor sampleConfig
      [originPose, stepRight 1] twoPoses (by decide) (translate 0 2 0) 5 sampleImage
      sampleImage).2.1⟩


/-! ## Visible features -/

theorem foldl_getVisibleFeaturesBody (sensorModel : DepthSensorModel) (cameraPose : Mat34)
    (l acc : List MapFeature) :
    l.foldl (getVisibleFeaturesBody sensorModel cameraPose) acc =
      acc ++ l.filter (fun f =>
        decide ((sensorModel.inverseModel (cameraFramePosition cameraPose f.position).x
          (cameraFramePosition cameraPose f.position).y
          (cameraFramePosition cameraPose f.position).z).x ≠ -1)) := by
  induction l generalizing acc with
  | nil => simp
  | cons f rest ih =>
    rw [List.foldl_cons, ih, List.filter_cons]
    by_cases h : (sensorModel.inverseModel (cameraFramePosition cameraPose f.position).x
        (cameraFramePosition cameraPose f.position).y
        (cameraFramePosition cameraPose f.position).z).x ≠ -1
    · have hb : getVisibleFeaturesBody sensorModel cameraPose acc f = acc ++ [f] := by
        unfold getVisibleFeaturesBody
        exact if_pos h
      rw [hb, if_pos (decide_eq_true h)]
      simp
    · have hb : getVisibleFeaturesBody sensorModel cameraPose acc f = acc := by
        unfold getVisibleFeaturesBody
        exact if_neg h
      rw [hb, if_neg (by simpa using h)]

/-- C18: when `inverseModel` answers either with the sentinel `(-1, -1, -1)` or with a
triple whose first component is not -1, `getVisibleFeatures(cameraPose)` returns
exactly the landmarks of the live map, in map order and unmodified, whose
camera-frame position is not mapped to the sentinel by `inverseModel`; it returns
the empty list when every landmark yields the sentinel. -/
theorem getVisibleFeatures_keeps_non_sentinel (sensorModel : DepthSensorModel)
    (hsentinel : ∀ x y z, sensorModel.inverseModel x y z = sentinel ∨
      (sensorModel.inverseModel x y z).x ≠ -1)
    (s : FeaturesMap) (cameraPose : Mat34) (tryLock : Bool) :
    (s.getVisibleFeatures sensorModel cameraPose tryLock).1 =
        s.featuresMapFrontend.filter (fun f =>
          decide (sensorModel.inverseModel (cameraFramePosition cameraPose f.position).x
            (cameraFramePosition cameraPose f.position).y
            (cameraFramePosition cameraPose f.position).z ≠ sentinel)) ∧
      ((∀ f ∈ s.featuresMapFrontend,
          sensorModel.inverseModel (cameraFramePosition cameraPose f.position).x
            (cameraFramePosition cameraPose f.position).y
            (cameraFramePosition cameraPose f.position).z = sentinel) →
        (s.getVisibleFeatures sensorModel cameraPose tryLock).1 = []) := by
  have hfilter : (s.getVisibleFeatures sensorModel cameraPose tryLock).1 =
      s.featuresMapFrontend.filter (fun f =>
        decide (sensorModel.inverseModel (cameraFramePosition cameraPose f.position).x
          (cameraFramePosition cameraPose f.position).y
          (cameraFramePosition cameraPose f.position).z ≠ sentinel)) := by
    show s.featuresMapFrontend.foldl (getVisibleFeaturesBody sensorModel cameraPose) [] = _
    rw [foldl_getVisibleFeaturesBody, List.nil_append]
    apply List.filter_congr
    intro f _
    rcases hsentinel (cameraFramePosition cameraPose f.position).x
      (cameraFramePosition cameraPose f.position).y
      (cameraFramePosition cameraPose f.position).z with h | h
    · rw [h]
      simp [sentinel]
    · have hne : sensorModel.inverseModel (cameraFramePosition cameraPose f.position).x
          (cameraFramePosition cameraPose f.position).y
          (cameraFramePosition cameraPose f.position).z ≠ sentinel := by
        intro e
        rw [e] at h
        exact h rfl
      rw [decide_eq_true h, decide_eq_true hne]
  refine ⟨hfilter, ?_⟩
  intro hall
  rw [hfilter, List.filter_eq_nil_iff]
  intro f hf
  simp [hall f hf]

theorem windowSensor_sentinel (x y z : Int) :
    windowSensor.inverseModel x y z = sentinel ∨ (windowSensor.inverseModel x y z).x ≠ -1 := by
  unfold windowSensor
  simp only
  split
  · right
    show x ≠ -1
    omega
  · left
    rfl

/-- C18 at a concrete map: of a landmark in front of the camera and one behind it, the
first is returned. -/
theorem getVisibleFeatures_keeps_non_sentinel_example :
    (∀ x y z, windowSensor.inverseModel x y z = sentinel ∨
      (windowSensor.inverseModel x y z).x ≠ -1) ∧
    frontAndBehind.featuresMapFrontend.map (fun f => (f.id, f.position)) =
      [(sampleStartId, { x := 0, y := 0, z := 1 }),
        (sampleStartId + 1, { x := 0, y := 0, z := -1 })] ∧
    ((frontAndBehind.getVisibleFeatures windowSensor Mat34.Identity true).1.map
        (fun f => (f.id, f.position)) = [(sampleStartId, { x := 0, y := 0, z := 1 })] ∧
      (frontAndBehind.getVisibleFeatures windowSensor Mat34.Identity true).1 =
        frontAndBehind.featuresMapFrontend.filter (fun f =>
          decide (windowSensor.inverseModel
            (cameraFramePosition Mat34.Identity f.position).x
            (cameraFramePosition Mat34.Identity f.position).y
            (cameraFramePosition Mat34.Identity f.position).z ≠ sentinel))) :=
  ⟨windowSensor_sentinel, by decide, by decide,
    (getVisibleFeatures_keeps_non_sentinel windowSensor windowSensor_sentinel
      frontAndBehind Mat34.Identity true).1⟩


/-! ## Nearest frame -/

/-- C13, evaluated on the code: the claim says that `findNearestFrame` returns, for a
landmark with two or more observing poses, the element `posesIds[j]` with the
largest dot product.  The landmark of `seenTwice` was observed from poses 1 and 2;
`findNearestFrame` returns 0 for it, which is the index `j` of the first maximum and
not a member of `posesIds`: the source assigns `idMax = j`.  For a landmark with
the single observing pose 2 it returns the pose id 2. -/
theorem findNearestFrame_returns_index :
    seenTwice.camTrajectory.length = 3 ∧
      seenTwice.featuresMapFrontend.map (fun f => (f.id, f.posesIds)) =
        [(sampleStartId, [1, 2])] ∧
      seenTwice.findNearestFrame seenTwice.featuresMapFrontend = some [0] ∧
      seenTwice.findNearestFrame
        [MapFeature.mk sampleStartId 320 240 { x := 2, y := 0, z := 1 } [2] []] = some [2] := by
  decide

/-! ## The optimizer loop -/

theorem foldl_updatePose_buffer (poses : List VertexSE3) (s : FeaturesMap) :
    (poses.foldl FeaturesMap.updatePose s).bufferMapFrontend = s.bufferMapFrontend := by
  induction poses generalizing s with
  | nil => rfl
  | cons p rest ih =>
    rw [List.foldl_cons, ih]
    rfl

/-- What a run of `updatePose` over `poses` leaves at index `k` of the trajectory: the
entry keeps vertexId and timestamp, is unchanged when no pose of the snapshot has
its vertexId, and has the pose of the last snapshot entry with its vertexId
otherwise. -/
theorem foldl_updatePose_entry (poses : List VertexSE3) (s : FeaturesMap) (k : Nat)
    (v : VertexSE3) (h : s.camTrajectory[k]? = some v) :
    ∃ v1, (poses.foldl FeaturesMap.updatePose s).camTrajectory[k]? = some v1 ∧
      v1.vertexId = v.vertexId ∧ v1.timestamp = v.timestamp ∧
      ((∀ p ∈ poses, p.vertexId ≠ v.vertexId) → v1 = v) ∧
      (∀ before p after, poses = before ++ p :: after → p.vertexId = v.vertexId →
        (∀ q ∈ after, q.vertexId ≠ v.vertexId) → v1.pose = p.pose) := by
  obtain ⟨v1, h1, hid, hts, hpose⟩ := foldl_updatePose_getElem? poses s k v h
  refine ⟨v1, h1, hid, hts, ?_, ?_⟩
  · intro hne
    have hp := hpose hne
    cases v1
    cases v
    simp only at hid hts hp
    subst hid hts hp
    rfl
  · intro before p after hposes hpid hafter
    subst hposes
    obtain ⟨v2, h2, hid2, _, _⟩ := foldl_updatePose_getElem? before s k v h
    have h3 := FeaturesMap.updatePose_getElem? _ p k v2 h2
    rw [if_pos (hid2.trans hpid.symm)] at h3
    obtain ⟨v4, h4, _, _, hpose4⟩ := foldl_updatePose_getElem? after _ k _ h3
    rw [List.foldl_append, List.foldl_cons, h4] at h1
    rw [← Option.some.inj h1]
    exact hpose4 (fun q hq => by
      show q.vertexId ≠ v2.vertexId
      rw [hid2]
      exact hafter q hq)

/-- C20, the claim as stated fails: in a pass in which the solver reports failure
the loop still stages the landmark snapshot, drains it into the live map when the
lock is acquired, and writes the pose snapshot to the trajectory, raising
`lastOptimizedPose`. -/
theorem optimizeLoopPass_applies_failed_pass :
    twoPosesOneLandmark.lastOptimizedPose = 0 ∧
      twoPosesOneLandmark.bufferMapFrontend.features2update = [] ∧
      twoPosesOneLandmark.featuresMapFrontend.map (fun f => f.position) =
        [{ x := 0, y := 0, z := 1 }] ∧
      twoPosesOneLandmark.camTrajectory.map (fun v => v.pose) =
        [Mat34.Identity, translate 1 0 0] ∧
      (failedPass false).report = false ∧
      (twoPosesOneLandmark.optimizeLoopPass (failedPass false)).bufferMapFrontend.features2update =
        [optimizedAt sampleStartId 5 5 5] ∧
      (twoPosesOneLandmark.optimizeLoopPass (failedPass false)).lastOptimizedPose = 1 ∧
      (twoPosesOneLandmark.optimizeLoopPass (failedPass false)).camTrajectory.map
        (fun v => v.pose) = [Mat34.Identity, translate 7 0 0] ∧
      (failedPass true).report = false ∧
      (twoPosesOneLandmark.optimizeLoopPass (failedPass true)).featuresMapFrontend.map
        (fun f => f.position) = [{ x := 5, y := 5, z := 5 }] := by
  decide

/-- C20 as amended: a pass of the optimizer loop does the same whatever the solver
reports.  It inserts the landmark snapshot at the front of `features2update`; when
the drain does not acquire the lock the snapshot stays queued and the live map is
as before; when it does, the live map is the old one followed by the staged
additions with the queued updates applied, and both queues are empty.  The pose
snapshot is written to the trajectory: `lastOptimizedPose` is the maximum of its
old value and the vertexIds of the snapshot, the trajectory keeps its length and
the odometry sequence is unchanged, every entry keeps its vertexId and timestamp,
an entry whose vertexId is not in the snapshot is unchanged, and an entry whose
vertexId is in the snapshot has the pose of the snapshot entry with that vertexId
(of the last one, should the snapshot name it more than once).  The loop goes on
with the next pass. -/
theorem optimizeLoopPass_ignores_report (s : FeaturesMap) (pass : SolverPass) (report : Bool) :
    s.optimizeLoopPass { pass with report := report } = s.optimizeLoopPass pass ∧
      (pass.tryLock = false →
        (s.optimizeLoopPass pass).bufferMapFrontend.features2update =
            pass.optimizedFeatures ++ s.bufferMapFrontend.features2update ∧
          (s.optimizeLoopPass pass).bufferMapFrontend.features2add =
            s.bufferMapFrontend.features2add ∧
          (s.optimizeLoopPass pass).featuresMapFrontend = s.featuresMapFrontend) ∧
      (pass.tryLock = true →
        (s.optimizeLoopPass pass).bufferMapFrontend =
            { features2add := [], features2update := [] } ∧
          (s.optimizeLoopPass pass).featuresMapFrontend =
            (pass.optimizedFeatures ++ s.bufferMapFrontend.features2update).foldl updateFeature
              (s.featuresMapFrontend ++ s.bufferMapFrontend.features2add)) ∧
      (s.optimizeLoopPass pass).lastOptimizedPose =
        (pass.optimizedPoses.map (fun p => p.vertexId)).foldl max s.lastOptimizedPose ∧
      (∀ rest, s.optimizeLoop (pass :: rest) = (s.optimizeLoopPass pass).optimizeLoop rest) ∧
      (s.optimizeLoopPass pass).camTrajectory.length = s.camTrajectory.length ∧
      (s.optimizeLoopPass pass).odoMeasurements = s.odoMeasurements ∧
      ∀ (k : Nat) (v : VertexSE3), s.camTrajectory[k]? = some v →
        ∃ v1, (s.optimizeLoopPass pass).camTrajectory[k]? = some v1 ∧
          v1.vertexId = v.vertexId ∧ v1.timestamp = v.timestamp ∧
          ((∀ p ∈ pass.optimizedPoses, p.vertexId ≠ v.vertexId) → v1 = v) ∧
          (∀ before p after, pass.optimizedPoses = before ++ p :: after →
            p.vertexId = v.vertexId → (∀ q ∈ after, q.vertexId ≠ v.vertexId) →
              v1.pose = p.pose) := by
  refine ⟨rfl, ?_, ?_, ?_, fun _ => rfl,
    (foldl_updatePose_lengths pass.optimizedPoses
      ((s.stageOptimizedFeatures pass.optimizedFeatures).updateMap pass.tryLock)).1,
    (foldl_updatePose_lengths pass.optimizedPoses
      ((s.stageOptimizedFeatures pass.optimizedFeatures).updateMap pass.tryLock)).2,
    fun k v h => foldl_updatePose_entry pass.optimizedPoses
      ((s.stageOptimizedFeatures pass.optimizedFeatures).updateMap pass.tryLock) k v h⟩
  · intro h
    simp only [FeaturesMap.optimizeLoopPass, FeaturesMap.optimizePass,
      FeaturesMap.updateCamTrajectory, h, foldl_updatePose_buffer,
      (foldl_updatePose_allIds _ _).2.2]
    simp [FeaturesMap.updateMap, updateMap_false, FeaturesMap.stageOptimizedFeatures]
  · intro h
    simp only [FeaturesMap.optimizeLoopPass, FeaturesMap.optimizePass,
      FeaturesMap.updateCamTrajectory, h, foldl_updatePose_buffer,
      (foldl_updatePose_allIds _ _).2.2]
    simp [FeaturesMap.updateMap, updateMap_true, FeaturesMap.stageOptimizedFeatures]
  · simp only [FeaturesMap.optimizeLoopPass, FeaturesMap.optimizePass,
      FeaturesMap.updateCamTrajectory, foldl_updatePose_lastOptimizedPose]
    rfl

/-- C20 as amended, at a concrete pass: the solver reports failure and the drain does
not acquire the lock; the snapshot stays queued, and pose 1 of the trajectory takes
the pose `translate 7 0 0` of the snapshot. -/
theorem optimizeLoopPass_ignores_report_example :
    ((failedPass false).tryLock = false ∧
      twoPosesOneLandmark.camTrajectory[1]? = some (VertexSE3.mk 1 (translate 1 0 0) 1) ∧
      (failedPass false).optimizedPoses = [] ++ VertexSE3.mk 1 (translate 7 0 0) 1 :: [] ∧
      (VertexSE3.mk 1 (translate 7 0 0) 1).vertexId =
        (VertexSE3.mk 1 (translate 1 0 0) 1).vertexId ∧
      ∀ q ∈ ([] : List VertexSE3), q.vertexId ≠ (VertexSE3.mk 1 (translate 1 0 0) 1).vertexId) ∧
    ((twoPosesOneLandmark.optimizeLoopPass (failedPass false)).bufferMapFrontend.features2update =
        (failedPass false).optimizedFeatures ++
          twoPosesOneLandmark.bufferMapFrontend.features2update ∧
      (twoPosesOneLandmark.optimizeLoopPass (failedPass false)).bufferMapFrontend.features2add =
        twoPosesOneLandmark.bufferMapFrontend.features2add ∧
      (twoPosesOneLandmark.optimizeLoopPass (failedPass false)).featuresMapFrontend =
        twoPosesOneLandmark.featuresMapFrontend) ∧
    ∃ v1, (twoPosesOneLandmark.optimizeLoopPass (failedPass false)).camTrajectory[1]? = some v1 ∧
      v1.pose = translate 7 0 0 :=
  ⟨⟨rfl, by decide, rfl, rfl, by simp⟩,
    (optimizeLoopPass_ignores_report twoPosesOneLandmark (failedPass false) true).2.1 rfl,
    match (optimizeLoopPass_ignores_report twoPosesOneLandmark (failedPass false)
        true).2.2.2.2.2.2.2 1 (VertexSE3.mk 1 (translate 1 0 0) 1) (by decide) with
    | ⟨v1, h1, _, _, _, hlast⟩ =>
      ⟨v1, h1, hlast [] (VertexSE3.mk 1 (translate 7 0 0) 1) [] rfl rfl (by simp)⟩⟩


/-! ## Ingestion of features -/

theorem expectedLandmarks_length (cameraPose : Mat34) (poseId : Int) (idNo : Nat)
    (features : List RGBDFeature) :
    (expectedLandmarks cameraPose poseId idNo features).length = features.length := by
  induction features generalizing idNo with
  | nil => rfl
  | cons it rest ih => simp [expectedLandmarks, ih]

theorem expectedLandmarks_id_ge (cameraPose : Mat34) (poseId : Int) (idNo : Nat)
    (features : List RGBDFeature) :
    ∀ f ∈ expectedLandmarks cameraPose poseId idNo features, idNo ≤ f.id := by
  induction features generalizing idNo with
  | nil => intro f hf; cases hf
  | cons it rest ih =>
    intro f hf
    simp only [expectedLandmarks, List.mem_cons] at hf
    rcases hf with rfl | hf
    · exact Nat.le_refl _
    · exact Nat.le_of_succ_le (ih (idNo + 1) f hf)

theorem expectedLandmarks_getElem? (cameraPose : Mat34) (poseId : Int) (idNo : Nat)
    (features : List RGBDFeature) (i : Nat) (it : RGBDFeature) (h : features[i]? = some it) :
    (expectedLandmarks cameraPose poseId idNo features)[i]? =
      some { id := idNo + i, u := it.u, v := it.v,
             position := worldPosition cameraPose it.position,
             posesIds := [toUnsigned poseId], descriptors := it.descriptors } := by
  induction features generalizing idNo i with
  | nil => cases h
  | cons a rest ih =>
    cases i with
    | zero =>
      simp only [List.getElem?_cons_zero, Option.some.injEq] at h
      subst h
      simp [expectedLandmarks]
    | succ j =>
      simp only [List.getElem?_cons_succ] at h
      simp only [expectedLandmarks, List.getElem?_cons_succ]
      rw [ih (idNo + 1) j h]
      congr 2
      omega

theorem addFeaturesBody_position (sensorModel : DepthSensorModel) (cameraPose : Mat34)
    (poseId : Int) (camTrajSize : Nat) (s : FeaturesMap) (it : RGBDFeature) :
    (addFeaturesBody sensorModel cameraPose poseId camTrajSize s it).bufferMapFrontend.features2add =
      s.bufferMapFrontend.features2add ++
        [{ id := s.featureIdNo, u := it.u, v := it.v,
           position := worldPosition cameraPose it.position,
           posesIds := [toUnsigned poseId], descriptors := it.descriptors }] := by
  rfl

/-- The loop of `addFeatures` appends the expected landmarks to `features2add`, moves
`featureIdNo` past them and leaves the live map and `features2update` alone. -/
theorem foldl_addFeaturesBody_staged (sensorModel : DepthSensorModel) (cameraPose : Mat34)
    (poseId : Int) (camTrajSize : Nat) (features : List RGBDFeature) (s : FeaturesMap) :
    (features.foldl (addFeaturesBody sensorModel cameraPose poseId camTrajSize)
        s).bufferMapFrontend.features2add =
        s.bufferMapFrontend.features2add ++
          expectedLandmarks cameraPose poseId s.featureIdNo features ∧
      (features.foldl (addFeaturesBody sensorModel cameraPose poseId camTrajSize)
        s).bufferMapFrontend.features2update = s.bufferMapFrontend.features2update ∧
      (features.foldl (addFeaturesBody sensorModel cameraPose poseId camTrajSize)
        s).featuresMapFrontend = s.featuresMapFrontend ∧
      (features.foldl (addFeaturesBody sensorModel cameraPose poseId camTrajSize)
        s).featureIdNo = s.featureIdNo + features.length := by
  induction features generalizing s with
  | nil => simp [expectedLandmarks]
  | cons it rest ih =>
    rw [List.foldl_cons]
    obtain ⟨h1, h2, h3, h4⟩ := ih (addFeaturesBody sensorModel cameraPose poseId camTrajSize s it)
    rw [h1, h2, h3, h4, addFeaturesBody_position]
    refine ⟨?_, rfl, rfl, ?_⟩
    · simp only [expectedLandmarks, List.append_assoc, List.singleton_append]
      rfl
    · show s.featureIdNo + 1 + rest.length = s.featureIdNo + (it :: rest).length
      simp only [List.length_cons]
      omega

theorem updateFeature_of_no_match (l : List MapFeature) (g : MapFeature)
    (h : ∀ f ∈ l, g.id ≠ f.id) : updateFeature l g = l := by
  unfold updateFeature
  conv_rhs => rw [← List.map_id l]
  apply List.map_congr_left
  intro f hf
  rw [if_neg (fun e => h f hf e.symm)]
  rfl

theorem foldl_updateFeature_of_no_match (ups l : List MapFeature)
    (h : ∀ g ∈ ups, ∀ f ∈ l, g.id ≠ f.id) : ups.foldl updateFeature l = l := by
  induction ups with
  | nil => rfl
  | cons g rest ih =>
    rw [List.foldl_cons, updateFeature_of_no_match l g (h g (List.mem_cons_self _ _))]
    exact ih (fun g1 hg1 => h g1 (List.mem_cons_of_mem _ hg1))

/-- C14: for the stored camera pose selected by `poseId`, with rotation `R` and
translation `t`, `addFeatures` stages exactly one new landmark per feature, in the
order of the features, with world position `R * p + t` for the camera-frame
position `p`; when its drain acquires the lock, and every queued update names a
landmark that was created before, `getAllFeatures` afterwards returns these
landmarks in ingestion order after the previously existing ones.  Whether the
drain of `addFeatures` or a later one moves them, the ids in the live map after the
drain are the previously existing ids followed by the new ids in ingestion
order. -/
theorem addFeatures_stages_world_positions (sensorModel : DepthSensorModel) (s : FeaturesMap)
    (features : List RGBDFeature) (poseId : Int) (camVertex : VertexSE3)
    (hpose : (if 0 ≤ poseId then at? s.camTrajectory poseId else s.camTrajectory.getLast?) =
      some camVertex) :
    (∃ s1, s.addFeatures sensorModel features poseId false = some s1 ∧
      s1.bufferMapFrontend.features2add = s.bufferMapFrontend.features2add ++
        expectedLandmarks camVertex.pose poseId s.featureIdNo features ∧
      s1.featuresMapFrontend = s.featuresMapFrontend) ∧
    ((∀ g ∈ s.bufferMapFrontend.features2update, g.id < s.featureIdNo) →
      ∃ s2 previous, s.addFeatures sensorModel features poseId true = some s2 ∧
        previous.length =
          s.featuresMapFrontend.length + s.bufferMapFrontend.features2add.length ∧
        previous.map (fun f => f.id) =
          (s.featuresMapFrontend ++ s.bufferMapFrontend.features2add).map (fun f => f.id) ∧
        ∀ tryLock, (s2.getAllFeatures tryLock).1 =
          previous ++ expectedLandmarks camVertex.pose poseId s.featureIdNo features) ∧
    (∀ tryLock s1, s.addFeatures sensorModel features poseId tryLock = some s1 →
      ∀ tryLock1, ((s1.updateMap true).getAllFeatures tryLock1).1.map (fun f => f.id) =
        (s.featuresMapFrontend ++ s.bufferMapFrontend.features2add).map (fun f => f.id) ++
          (expectedLandmarks camVertex.pose poseId s.featureIdNo features).map
            (fun f => f.id)) ∧
    (expectedLandmarks camVertex.pose poseId s.featureIdNo features).length = features.length ∧
    ∀ (i : Nat) (it : RGBDFeature), features[i]? = some it →
      ∃ f, (expectedLandmarks camVertex.pose poseId s.featureIdNo features)[i]? = some f ∧
        f.id = s.featureIdNo + i ∧ f.u = it.u ∧ f.v = it.v ∧ f.descriptors = it.descriptors ∧
        f.position = worldPosition camVertex.pose it.position := by
  obtain ⟨h1, h2, h3, _⟩ := foldl_addFeaturesBody_staged sensorModel camVertex.pose poseId
    s.camTrajectory.length features s
  refine ⟨?_, ?_, ?_, expectedLandmarks_length _ _ _ _, ?_⟩
  · refine ⟨_, by simp only [FeaturesMap.addFeatures, hpose]; rfl, ?_, ?_⟩
    · simp only [FeaturesMap.updateMap, updateMap_false]
      exact h1
    · simp only [FeaturesMap.updateMap, updateMap_false]
      exact h3
  · intro hups
    refine ⟨_, s.bufferMapFrontend.features2update.foldl updateFeature
      (s.featuresMapFrontend ++ s.bufferMapFrontend.features2add),
      by simp only [FeaturesMap.addFeatures, hpose]; rfl, ?_, ?_, ?_⟩
    · rw [foldl_updateFeature_length, List.length_append]
    · rw [foldl_updateFeature_map_id]
    · intro tryLock
      simp only [FeaturesMap.getAllFeatures, FeaturesMap.updateMap, updateMap_true, h1, h2, h3]
      rw [← List.append_assoc, foldl_updateFeature_append]
      congr 1
      apply foldl_updateFeature_of_no_match
      intro g hg f hf
      have := expectedLandmarks_id_ge _ _ _ _ f hf
      have := hups g hg
      omega
  · intro tryLock s1 hs1 tryLock1
    simp only [FeaturesMap.addFeatures, hpose, Option.some.injEq] at hs1
    subst hs1
    have hall : ∀ t : FeaturesMap, (t.updateMap true).featuresMapFrontend.map (fun f => f.id) =
        t.allIds := by
      intro t
      rw [← FeaturesMap.updateMap_allIds t true]
      simp [FeaturesMap.allIds, FeaturesMap.updateMap, updateMap_true]
    show (FeaturesMap.updateMap _ true).featuresMapFrontend.map (fun f => f.id) = _
    rw [hall]
    show (FeaturesMap.updateMap _ tryLock).allIds = _
    rw [FeaturesMap.updateMap_allIds]
    simp only [FeaturesMap.allIds, h1, h3, List.map_append, List.append_assoc]
  · intro i it hi
    exact ⟨_, expectedLandmarks_getElem? _ _ _ _ i it hi, rfl, rfl, rfl, rfl, rfl⟩

/-- C14 on the scenario of the spec: one pose at the identity and one feature at
camera-frame `(0, 0, 1)`; after the drain `getAllFeatures` returns exactly one
landmark, at world position `(0, 0, 1)`. -/
theorem addFeatures_stages_world_positions_example :
    ((if (0 : Int) ≤ 0 then at? onePose.camTrajectory 0 else onePose.camTrajectory.getLast?) =
        some (VertexSE3.mk 0 Mat34.Identity 0) ∧
      ∀ g ∈ onePose.bufferMapFrontend.features2update, g.id < onePose.featureIdNo) ∧
    (onePose.featuresMapFrontend = [] ∧
      expectedLandmarks Mat34.Identity 0 onePose.featureIdNo [sampleFeature] =
        [MapFeature.mk sampleStartId 320 240 { x := 0, y := 0, z := 1 } [0] []]) ∧
    ∃ s2 previous, onePose.addFeatures sampleSensor [sampleFeature] 0 true = some s2 ∧
      previous.length =
        onePose.featuresMapFrontend.length + onePose.bufferMapFrontend.features2add.length ∧
      previous.map (fun f => f.id) =
        (onePose.featuresMapFrontend ++ onePose.bufferMapFrontend.features2add).map
          (fun f => f.id) ∧
      ∀ tryLock, (s2.getAllFeatures tryLock).1 =
        previous ++ expectedLandmarks (VertexSE3.mk 0 Mat34.Identity 0).pose 0
          onePose.featureIdNo [sampleFeature] :=
  ⟨⟨by decide, by decide⟩, ⟨by decide, by decide⟩,
    (addFeatures_stages_world_positions sampleSensor onePose [sampleFeature] 0
      (VertexSE3.mk 0 Mat34.Identity 0) (by decide)).2.1 (by decide)⟩


/-! ## Adding measurements -/

section Measurements

variable (FATURES_START_ID : Nat) (sensorModel : DepthSensorModel)

theorem toUnsigned_of_nonneg (i : Int) (h0 : 0 ≤ i) (h1 : i < 2 ^ 32) :
    toUnsigned i = i.toNat := by
  unfold toUnsigned
  rw [Int.emod_eq_of_lt h0 h1]

/-- The loop of `addMeasurements` on a live map whose landmark at index `k` has the id
`FATURES_START_ID + k`, for features whose ids are in the live map. -/
theorem foldlM_addMeasurementsBody_spec (p : Nat) (features : List MapFeature)
    (s : FeaturesMap)
    (halign : ∀ (k : Nat) (f : MapFeature), s.featuresMapFrontend[k]? = some f →
      f.id = FATURES_START_ID + k)
    (hknown : ∀ it ∈ features, ∃ k, k < s.featuresMapFrontend.length ∧
      it.id = FATURES_START_ID + k) :
    ∃ s1, features.foldlM (addMeasurementsBody FATURES_START_ID sensorModel p) s = some s1 ∧
      MeasurementsAdded sensorModel features p s s1 := by
  induction features generalizing s with
  | nil =>
    refine ⟨s, rfl, rfl, ?_, by simp, rfl⟩
    intro k f hf
    simp [hf]
  | cons it rest ih =>
    obtain ⟨k0, hk0, hid0⟩ := hknown it (List.mem_cons_self _ _)
    have hidx : featureIndex FATURES_START_ID it.id = some k0 := by
      unfold featureIndex
      rw [hid0, if_neg (by omega)]
      simp
    have hf0 : s.featuresMapFrontend[k0]? = some s.featuresMapFrontend[k0] :=
      List.getElem?_eq_getElem hk0
    have hbody : addMeasurementsBody FATURES_START_ID sensorModel p s it =
        some { s with
          featuresMapFrontend := s.featuresMapFrontend.set k0
            { s.featuresMapFrontend[k0] with
              posesIds := s.featuresMapFrontend[k0].posesIds ++ [p] },
          poseGraph := s.poseGraph.addEdge3D (measurementEdge sensorModel s.config p it) } := by
      simp only [addMeasurementsBody, hidx, hf0]
      rfl
    have halign2 : ∀ (k : Nat) (f : MapFeature),
        (s.featuresMapFrontend.set k0
          { s.featuresMapFrontend[k0] with
            posesIds := s.featuresMapFrontend[k0].posesIds ++ [p] })[k]? = some f →
        f.id = FATURES_START_ID + k := by
      intro k f hf
      by_cases hkk : k0 = k
      · subst hkk
        rw [List.getElem?_set, if_pos rfl, if_pos hk0] at hf
        injection hf with hf
        subst hf
        exact halign k0 s.featuresMapFrontend[k0] hf0
      · rw [List.getElem?_set, if_neg hkk] at hf
        exact halign k f hf
    obtain ⟨s1, hrest, hlen1, hidx1, hedges1, hsame1⟩ := ih
      { s with
        featuresMapFrontend := s.featuresMapFrontend.set k0
          { s.featuresMapFrontend[k0] with
            posesIds := s.featuresMapFrontend[k0].posesIds ++ [p] },
        poseGraph := s.poseGraph.addEdge3D (measurementEdge sensorModel s.config p it) }
      halign2
      (fun it1 h1 => by
        obtain ⟨k, hk, hid⟩ := hknown it1 (List.mem_cons_of_mem _ h1)
        exact ⟨k, by simpa using hk, hid⟩)
    refine ⟨s1, ?_, ?_, ?_, ?_, ?_⟩
    · rw [List.foldlM_cons, hbody]
      exact hrest
    · rw [hlen1]
      simp
    · intro k f hf
      by_cases hkk : k0 = k
      · subst hkk
        have hfeq : s.featuresMapFrontend[k0] = f := by
          rw [hf0] at hf
          exact Option.some.inj hf
        have h2 := hidx1 k0 { s.featuresMapFrontend[k0] with
            posesIds := s.featuresMapFrontend[k0].posesIds ++ [p] } (by
          show (s.featuresMapFrontend.set k0 _)[k0]? = _
          rw [List.getElem?_set, if_pos rfl, if_pos hk0])
        rw [h2, hfeq]
        have hitid : it.id = f.id := by
          rw [hid0, halign k0 f hf]
        simp only [List.countP_cons, hitid, decide_True, if_true, List.append_assoc,
          List.singleton_append, List.replicate_succ, Option.some.injEq]
      · have h2 := hidx1 k f (by
          show (s.featuresMapFrontend.set k0 _)[k]? = _
          rw [List.getElem?_set, if_neg hkk]
          exact hf)
        rw [h2]
        have hne : ¬ it.id = f.id := by
          rw [hid0, halign k f hf]
          omega
        simp [List.countP_cons, hne]
    · rw [hedges1]
      simp [PoseGraph.addEdge3D]
    · rw [hsame1]
      rfl

/-- In every state reached from a fresh map, a landmark in the map or in the buffer
means that the trajectory has a pose. -/
theorem FeaturesMap.run_trajectory_nonempty (config : Config) (calls : List Call)
    (s : FeaturesMap)
    (hrun : (FeaturesMap.new FATURES_START_ID config).run FATURES_START_ID sensorModel calls =
      some s) : s.allIds ≠ [] → s.camTrajectory ≠ [] := by
  refine FeaturesMap.run_induction FATURES_START_ID sensorModel
    (fun s => s.allIds ≠ [] → s.camTrajectory ≠ []) ?_ calls
    (FeaturesMap.new FATURES_START_ID config) s (fun h => absurd rfl h) hrun
  intro s c s1 h hc
  cases c with
  | addNewPose dT t image depthImage =>
    simp only [FeaturesMap.call, Option.some.injEq] at hc
    subst hc
    intro _
    unfold FeaturesMap.addNewPose
    split <;> simp
  | addFeatures features poseId tryLock =>
    intro _
    have htraj := (FeaturesMap.call_trajectory FATURES_START_ID sensorModel s s1 _ hc
      (fun _ _ _ _ e => by cases e) rfl).1
    rw [htraj]
    simp only [FeaturesMap.call, FeaturesMap.addFeatures] at hc
    intro hnil
    rw [hnil] at hc
    split at hc
    · cases hc
    · rename_i v hv
      split at hv
      · simp [at?] at hv
      · simp at hv
  | addMeasurements features poseId =>
    have htraj := (FeaturesMap.call_trajectory FATURES_START_ID sensorModel s s1 _ hc
      (fun _ _ _ _ e => by cases e) rfl).1
    simp only [FeaturesMap.call, FeaturesMap.addMeasurements] at hc
    have hids := (foldlM_addMeasurementsBody_allIds FATURES_START_ID sensorModel _ _ _ _ hc).1
    rw [htraj, hids]
    exact h
  | addMeasurement poseFrom poseTo T =>
    simp only [FeaturesMap.call, Option.some.injEq] at hc
    subst hc
    exact h
  | updateMap tryLock =>
    simp only [FeaturesMap.call, Option.some.injEq] at hc
    subst hc
    rw [FeaturesMap.updateMap_allIds]
    exact h
  | stageOptimizedFeatures optimizedFeatures =>
    simp only [FeaturesMap.call, Option.some.injEq] at hc
    subst hc
    exact h
  | updateCamTrajectory poses =>
    simp only [FeaturesMap.call, Option.some.injEq] at hc
    subst hc
    intro hne
    have h1 := (foldl_updatePose_allIds poses s).1
    have h2 := (foldl_updatePose_lengths poses s).1
    unfold FeaturesMap.updateCamTrajectory at hne ⊢
    rw [h1] at hne
    intro hnil
    rw [hnil] at h2
    exact h hne (List.length_eq_zero.mp h2.symm)

/-- In a state reached from a fresh map, `addMeasurements` for features whose ids are
in the live map succeeds and adds the measurements from the selected pose. -/
theorem FeaturesMap.addMeasurements_of_run (config : Config) (calls : List Call)
    (s : FeaturesMap)
    (hrun : (FeaturesMap.new FATURES_START_ID config).run FATURES_START_ID sensorModel calls =
      some s)
    (features : List MapFeature)
    (hknown : ∀ it ∈ features, ∃ f ∈ s.featuresMapFrontend, f.id = it.id)
    (poseId : Int) (hint : poseId < 2 ^ 31) (hlen : s.camTrajectory.length < 2 ^ 31) :
    ∃ s1, s.addMeasurements FATURES_START_ID sensorModel features poseId = some s1 ∧
      MeasurementsAdded sensorModel features (s.selectedPose poseId) s s1 := by
  have hinv := FeaturesMap.run_idsConsecutive FATURES_START_ID sensorModel config calls s hrun
  have halign := FeaturesMap.idsConsecutive_getElem? FATURES_START_ID s hinv
  have hknown2 : ∀ it ∈ features, ∃ k, k < s.featuresMapFrontend.length ∧
      it.id = FATURES_START_ID + k := by
    intro it hit
    obtain ⟨f, hf, hid⟩ := hknown it hit
    obtain ⟨k, hk⟩ := List.getElem?_of_mem hf
    exact ⟨k, (List.getElem?_eq_some_iff.mp hk).1, by rw [← hid, halign k f hk]⟩
  cases features with
  | nil =>
    exact ⟨s, rfl, rfl, fun k f hf => by simp [hf], by simp, rfl⟩
  | cons it rest =>
    have hp : toUnsigned (if 0 ≤ poseId then poseId else (s.camTrajectory.length : Int) - 1) =
        s.selectedPose poseId := by
      unfold FeaturesMap.selectedPose
      by_cases h0 : 0 ≤ poseId
      · rw [if_pos h0, if_pos h0]
        exact toUnsigned_of_nonneg _ h0 (by omega)
      · rw [if_neg h0, if_neg h0]
        have hne : s.camTrajectory ≠ [] := by
          apply FeaturesMap.run_trajectory_nonempty FATURES_START_ID sensorModel config calls s hrun
          obtain ⟨f, hf, _⟩ := hknown it (List.mem_cons_self _ _)
          intro hnil
          unfold FeaturesMap.allIds at hnil
          rw [List.map_eq_nil_iff, List.append_eq_nil] at hnil
          rw [hnil.1] at hf
          cases hf
        have hpos : 0 < s.camTrajectory.length := List.length_pos.mpr hne
        rw [toUnsigned_of_nonneg _ (by omega) (by omega)]
        omega
    have h := foldlM_addMeasurementsBody_spec FATURES_START_ID sensorModel
      (s.selectedPose poseId) (it :: rest) s halign hknown2
    unfold FeaturesMap.addMeasurements
    simp only [hp]
    exact h

end Measurements


/-- C11: in a state reached from a fresh map, for features whose ids are ids of
landmarks in the live map and for the pose id `p` given by the argument (the last
pose when the argument is negative), `addMeasurements` appends `p` once per listed
feature to the `posesIds` of the landmark with that feature's id, adds exactly one
observation edge per listed feature (from `p` to that id, with the supplied
camera-frame position as measurement) and leaves position, id and descriptors of
every landmark unchanged; the same call repeated appends `p` again and adds the
edges again.  The argument and the trajectory length are values of an `int`. -/
theorem addMeasurements_appends_pose_and_edge (FATURES_START_ID : Nat)
    (sensorModel : DepthSensorModel) (config : Config) (calls : List Call) (s : FeaturesMap)
    (hrun : (FeaturesMap.new FATURES_START_ID config).run FATURES_START_ID sensorModel calls =
      some s)
    (features : List MapFeature)
    (hknown : ∀ it ∈ features, ∃ f ∈ s.featuresMapFrontend, f.id = it.id)
    (poseId : Int) (hint : poseId < 2 ^ 31) (hlen : s.camTrajectory.length < 2 ^ 31) :
    ∃ s1 s2, s.addMeasurements FATURES_START_ID sensorModel features poseId = some s1 ∧
      MeasurementsAdded sensorModel features (s.selectedPose poseId) s s1 ∧
      s1.addMeasurements FATURES_START_ID sensorModel features poseId = some s2 ∧
      MeasurementsAdded sensorModel features (s.selectedPose poseId) s1 s2 := by
  obtain ⟨s1, h1, hm1⟩ := FeaturesMap.addMeasurements_of_run FATURES_START_ID sensorModel config
    calls s hrun features hknown poseId hint hlen
  have hrun1 : (FeaturesMap.new FATURES_START_ID config).run FATURES_START_ID sensorModel
      (calls ++ [.addMeasurements features poseId]) = some s1 := by
    simp only [FeaturesMap.run] at hrun ⊢
    rw [List.foldlM_append, hrun]
    simp [FeaturesMap.call, h1]
  have htraj : s1.camTrajectory = s.camTrajectory := by
    rw [hm1.2.2.2]
  have hknown1 : ∀ it ∈ features, ∃ f ∈ s1.featuresMapFrontend, f.id = it.id := by
    intro it hit
    obtain ⟨f, hf, hid⟩ := hknown it hit
    obtain ⟨k, hk⟩ := List.getElem?_of_mem hf
    exact ⟨_, List.getElem?_mem (hm1.2.1 k f hk), hid⟩
  obtain ⟨s2, h2, hm2⟩ := FeaturesMap.addMeasurements_of_run FATURES_START_ID sensorModel config
    _ s1 hrun1 features hknown1 poseId hint (by rw [htraj]; exact hlen)
  have hsel : s1.selectedPose poseId = s.selectedPose poseId := by
    unfold FeaturesMap.selectedPose
    rw [htraj]
  rw [hsel] at hm2
  exact ⟨s1, s2, h1, hm1, h2, hm2⟩

/-- C11 at a concrete state: a landmark seen from pose 0 is observed twice from
pose 1. -/
theorem addMeasurements_appends_pose_and_edge_example :
    ((FeaturesMap.new sampleStartId sampleConfig).run sampleStartId sampleSensor
        twoPosesOneLandmarkCalls = some twoPosesOneLandmark ∧
      (∀ it ∈ [optimizedAt sampleStartId 3 3 3],
        ∃ f ∈ twoPosesOneLandmark.featuresMapFrontend, f.id = it.id) ∧
      (1 : Int) < 2 ^ 31 ∧ twoPosesOneLandmark.camTrajectory.length < 2 ^ 31) ∧
    ((twoPosesOneLandmark.addMeasurements sampleStartId sampleSensor
        [optimizedAt sampleStartId 3 3 3, optimizedAt sampleStartId 3 3 3] 1).map (fun s2 =>
          (s2.featuresMapFrontend.map (fun f => (f.id, f.position, f.posesIds)),
            s2.poseGraph.edges3D.map (fun e => (e.fromVertexId, e.toVertexId, e.trans)))) =
      some ([(sampleStartId, Vec3.mk 0 0 1, [0, 1, 1])],
        [(1, sampleStartId, Vec3.mk 0 0 1), (1, sampleStartId, Vec3.mk 3 3 3),
          (1, sampleStartId, Vec3.mk 3 3 3)])) ∧
    ∃ s1 s2, twoPosesOneLandmark.addMeasurements sampleStartId sampleSensor
        [optimizedAt sampleStartId 3 3 3] 1 = some s1 ∧
      MeasurementsAdded sampleSensor [optimizedAt sampleStartId 3 3 3]
        (twoPosesOneLandmark.selectedPose 1) twoPosesOneLandmark s1 ∧
      s1.addMeasurements sampleStartId sampleSensor [optimizedAt sampleStartId 3 3 3] 1 =
        some s2 ∧
      MeasurementsAdded sampleSensor [optimizedAt sampleStartId 3 3 3]
        (twoPosesOneLandmark.selectedPose 1) s1 s2 :=
  ⟨⟨by decide, by decide, by norm_num, by decide⟩, by decide,
    addMeasurements_appends_pose_and_edge sampleStartId sampleSensor sampleConfig
      twoPosesOneLandmarkCalls twoPosesOneLandmark (by decide) [optimizedAt sampleStartId 3 3 3]
      (by decide) 1 (by norm_num) (by decide)⟩

/-! ## Measurements with unknown ids -/

/-- C19, the claim as stated fails: with one pose in the trajectory,
`addMeasurements` for pose id 5 returns normally, adds an observation edge from
pose 5 and appends 5 to the `posesIds` of the landmark, so the live landmark vector
changes; on an empty trajectory `addMeasurement(7, 9, T)` adds the edge between the
poses 7 and 9.  The functions return nothing and check nothing. -/
theorem addMeasurements_accepts_unknown_pose :
    twoLandmarks.camTrajectory.length = 1 ∧
      twoLandmarks.poseGraph.edges3D.length = 2 ∧
      twoLandmarks.featuresMapFrontend.map (fun f => (f.id, f.posesIds)) =
        [(sampleStartId, [0]), (sampleStartId + 1, [0])] ∧
      (twoLandmarks.addMeasurements sampleStartId sampleSensor
          [optimizedAt sampleStartId 0 0 1] 5).map (fun s1 =>
            (s1.poseGraph.edges3D.map (fun e => (e.fromVertexId, e.toVertexId)),
              s1.featuresMapFrontend.map (fun f => (f.id, f.posesIds)))) =
        some ([(0, sampleStartId), (0, sampleStartId + 1), (5, sampleStartId)],
          [(sampleStartId, [0, 5]), (sampleStartId + 1, [0])]) ∧
      sampleMap.camTrajectory = [] ∧
      (sampleMap.addMeasurement 7 9 Mat34.Identity).poseGraph.edgesSE3 =
        [{ trans := Mat34.Identity, info := Mat66.Identity, fromVertexId := 7,
           toVertexId := 9 }] := by
  decide

/-- C19 as amended: pose ids are not checked.  For every state and every pair of pose
ids, in the trajectory or not, `addMeasurement` adds one edge between them with the
identity as information matrix and changes nothing else.  In a state reached from
a fresh map, for features whose ids are ids of landmarks in the live map and a
pose id that is not in the trajectory, `addMeasurements` returns normally,
appends the pose id to the `posesIds` of each listed landmark and adds one
observation edge from that pose id per listed feature. -/
theorem measurements_do_not_check_pose_ids (FATURES_START_ID : Nat)
    (sensorModel : DepthSensorModel) (config : Config) (calls : List Call) (s : FeaturesMap)
    (hrun : (FeaturesMap.new FATURES_START_ID config).run FATURES_START_ID sensorModel calls =
      some s)
    (features : List MapFeature)
    (hknown : ∀ it ∈ features, ∃ f ∈ s.featuresMapFrontend, f.id = it.id)
    (poseId : Int) (hunknown : (s.camTrajectory.length : Int) ≤ poseId) (hint : poseId < 2 ^ 31)
    (poseFrom poseTo : Int) (transformation : Mat34) :
    (∃ s1, s.addMeasurements FATURES_START_ID sensorModel features poseId = some s1 ∧
      MeasurementsAdded sensorModel features poseId.toNat s s1) ∧
    s.addMeasurement poseFrom poseTo transformation =
      { s with poseGraph := { s.poseGraph with
          edgesSE3 := s.poseGraph.edgesSE3 ++
            [{ trans := transformation, info := Mat66.Identity, fromVertexId := poseFrom,
               toVertexId := poseTo }] } } := by
  refine ⟨?_, rfl⟩
  have h0 : 0 ≤ poseId := le_trans (Int.ofNat_nonneg _) hunknown
  obtain ⟨s1, h1, hm1⟩ := FeaturesMap.addMeasurements_of_run FATURES_START_ID sensorModel config
    calls s hrun features hknown poseId hint (by omega)
  have hsel : s.selectedPose poseId = poseId.toNat := by
    unfold FeaturesMap.selectedPose
    rw [if_pos h0]
  rw [hsel] at hm1
  exact ⟨s1, h1, hm1⟩

/-- C19 as amended, at a concrete state: one pose in the trajectory, a measurement
from pose id 5. -/
theorem measurements_do_not_check_pose_ids_example :
    ((FeaturesMap.new sampleStartId sampleConfig).run sampleStartId sampleSensor
        twoLandmarksCalls = some twoLandmarks ∧
      (∀ it ∈ [optimizedAt sampleStartId 0 0 1],
        ∃ f ∈ twoLandmarks.featuresMapFrontend, f.id = it.id) ∧
      (twoLandmarks.camTrajectory.length : Int) ≤ 5 ∧ (5 : Int) < 2 ^ 31) ∧
    ∃ s1, twoLandmarks.addMeasurements sampleStartId sampleSensor
        [optimizedAt sampleStartId 0 0 1] 5 = some s1 ∧
      MeasurementsAdded sampleSensor [optimizedAt sampleStartId 0 0 1] (5 : Int).toNat
        twoLandmarks s1 :=
  ⟨⟨by decide, by decide, by decide, by norm_num⟩,
    (measurements_do_not_check_pose_ids sampleStartId sampleSensor sampleConfig
      twoLandmarksCalls twoLandmarks (by decide) [optimizedAt sampleStartId 0 0 1] (by decide) 5
      (by decide) (by norm_num) 0 0 Mat34.Identity).1⟩


/-! ## Timestamps -/

section Timestamps

variable (FATURES_START_ID : Nat) (sensorModel : DepthSensorModel)

theorem foldl_updatePose_timestamps (poses : List VertexSE3) (s : FeaturesMap) :
    (poses.foldl FeaturesMap.updatePose s).camTrajectory.map (fun v => v.timestamp) =
      s.camTrajectory.map (fun v => v.timestamp) := by
  induction poses generalizing s with
  | nil => rfl
  | cons p rest ih =>
    rw [List.foldl_cons, ih]
    simp only [FeaturesMap.updatePose, List.map_map]
    apply List.map_congr_left
    intro v _
    simp only [Function.comp]
    split <;> rfl

/-- The stored timestamps are the timestamps handed to `addNewPose`, in order. -/
theorem FeaturesMap.run_timestamps (calls : List Call) (s s1 : FeaturesMap)
    (hrun : s.run FATURES_START_ID sensorModel calls = some s1) :
    s1.camTrajectory.map (fun v => v.timestamp) =
      s.camTrajectory.map (fun v => v.timestamp) ++ timestampsOf calls := by
  induction calls generalizing s with
  | nil =>
    simp only [FeaturesMap.run, List.foldlM_nil] at hrun
    cases hrun
    simp [timestampsOf]
  | cons c rest ih =>
    simp only [FeaturesMap.run, List.foldlM_cons] at hrun
    cases hc : s.call FATURES_START_ID sensorModel c with
    | none => rw [hc] at hrun; cases hrun
    | some s2 =>
      rw [hc] at hrun
      have h2 := ih s2 hrun
      by_cases hp : ∃ dT t image depthImage, c = .addNewPose dT t image depthImage
      · obtain ⟨dT, t, image, depthImage, rfl⟩ := hp
        simp only [FeaturesMap.call, Option.some.injEq] at hc
        subst hc
        have hts : (s.addNewPose dT t image depthImage).1.camTrajectory.map
            (fun v => v.timestamp) = s.camTrajectory.map (fun v => v.timestamp) ++ [t] := by
          unfold FeaturesMap.addNewPose
          split <;> simp
        rw [h2, hts]
        simp [timestampsOf]
      · have hne : ∀ dT t image depthImage, c ≠ .addNewPose dT t image depthImage :=
          fun dT t image depthImage e => hp ⟨dT, t, image, depthImage, e⟩
        have hts : timestampsOf (c :: rest) = timestampsOf rest := by
          cases c with
          | addNewPose dT t image depthImage => exact absurd rfl (hne dT t image depthImage)
          | _ => rfl
        have hsame : s2.camTrajectory.map (fun v => v.timestamp) =
            s.camTrajectory.map (fun v => v.timestamp) := by
          cases hopt : c.appliesPoses with
          | false =>
            rw [(FeaturesMap.call_trajectory FATURES_START_ID sensorModel s s2 c hc hne hopt).1]
          | true =>
            cases c with
            | updateCamTrajectory poses =>
              simp only [FeaturesMap.call, Option.some.injEq] at hc
              subst hc
              exact foldl_updatePose_timestamps poses s
            | _ => simp [Call.appliesPoses] at hopt
        rw [h2, hsame, hts]

end Timestamps

/-- C21, the claim as stated fails: `addNewPose` at time 5 and then at time 3 returns
1 for the second call, and the stored timestamps are 5 and 3, so
`trajectory[1].timestamp` is smaller than `trajectory[0].timestamp`. -/
theorem addNewPose_stores_decreasing_timestamp :
    ((sampleMap.addNewPose Mat34.Identity 5 sampleImage sampleImage).1.addNewPose
        (translate 1 0 0) 3 sampleImage sampleImage).2 = 1 ∧
      ((sampleMap.addNewPose Mat34.Identity 5 sampleImage sampleImage).1.addNewPose
        (translate 1 0 0) 3 sampleImage sampleImage).1.camTrajectory.map
          (fun v => v.timestamp) = [5, 3] := by
  decide

/-- C21 as amended: `addNewPose` stores the timestamp it is given without comparing
it with the previous one, and nothing else changes a timestamp: in every state
reached from a fresh map the stored timestamps are the timestamps passed to
`addNewPose`, in call order.  Hence the timestamps of the trajectory are
non-decreasing when the timestamps passed by the caller are. -/
theorem timestamps_are_those_passed (FATURES_START_ID : Nat) (sensorModel : DepthSensorModel)
    (config : Config) (calls : List Call) (s : FeaturesMap)
    (hrun : (FeaturesMap.new FATURES_START_ID config).run FATURES_START_ID sensorModel calls =
      some s) :
    s.camTrajectory.map (fun v => v.timestamp) = timestampsOf calls ∧
      ((∀ (i : Nat) (a b : Int), (timestampsOf calls)[i]? = some a →
          (timestampsOf calls)[i + 1]? = some b → a ≤ b) →
        ∀ (i : Nat) (v w : VertexSE3), s.camTrajectory[i]? = some v →
          s.camTrajectory[i + 1]? = some w → v.timestamp ≤ w.timestamp) := by
  have h := FeaturesMap.run_timestamps FATURES_START_ID sensorModel calls _ s hrun
  have hts : s.camTrajectory.map (fun v => v.timestamp) = timestampsOf calls := by
    rw [h]
    simp [FeaturesMap.new]
  refine ⟨hts, ?_⟩
  intro hmono i v w hv hw
  apply hmono i v.timestamp w.timestamp
  · rw [← hts, List.getElem?_map, hv]
    rfl
  · rw [← hts, List.getElem?_map, hw]
    rfl

theorem sampleTimestamps_monotone (i : Nat) (a b : Int)
    (ha : (timestampsOf [stepRight 0, stepRight 1, stepRight 2])[i]? = some a)
    (hb : (timestampsOf [stepRight 0, stepRight 1, stepRight 2])[i + 1]? = some b) : a ≤ b := by
  have hts : timestampsOf [stepRight 0, stepRight 1, stepRight 2] = [0, 1, 2] := rfl
  rw [hts] at ha hb
  match i with
  | 0 =>
    simp at ha hb
    omega
  | 1 =>
    simp at ha hb
    omega
  | (k + 2) => simp at hb

/-- C21 as amended, at a concrete run: three poses added at the times 0, 1 and 2. -/
theorem timestamps_are_those_passed_example :
    ((FeaturesMap.new sampleStartId sampleConfig).run sampleStartId sampleSensor
        [stepRight 0, stepRight 1, stepRight 2] = some threePoses ∧
      ∀ (i : Nat) (a b : Int),
        (timestampsOf [stepRight 0, stepRight 1, stepRight 2])[i]? = some a →
          (timestampsOf [stepRight 0, stepRight 1, stepRight 2])[i + 1]? = some b → a ≤ b) ∧
    threePoses.camTrajectory.map (fun v => v.timestamp) = [0, 1, 2] ∧
    ∀ (i : Nat) (v w : VertexSE3), threePoses.camTrajectory[i]? = some v →
      threePoses.camTrajectory[i + 1]? = some w → v.timestamp ≤ w.timestamp :=
  ⟨⟨by decide, sampleTimestamps_monotone⟩, by decide,
    (timestamps_are_those_passed sampleStartId sampleSensor sampleConfig
      [stepRight 0, stepRight 1, stepRight 2] threePoses (by decide)).2
      sampleTimestamps_monotone⟩

/-! ## Text dump -/

/-- C22, evaluated on the code: the claim says that the dump lists, for a descriptor
with `r` rows and `c` columns, its `r * c` elements in row-major order, each read at
an index inside the matrix.  The `Pose` line is as claimed.  For the descriptor of
1 row and 2 columns with the elements 7 and 8, whose row-major indices are
`(0, 0)` and `(0, 1)`, the source reads `at(0, 0)` and `at(1, 0)`: its loops run
`i` to `descriptor.cols` and `j` to `descriptor.rows` and read `at(i, j)`, so the
second read is in row 1 of a matrix with one row.  A square descriptor is listed
in row-major order. -/
theorem save2file_reads_descriptor_transposed :
    described.poseLines = [.pose 0 [1, 0, 0, 0, 0, 1, 0, 0, 0, 0, 1, 0]] ∧
      described.featuresMapFrontend.map (fun f => f.descriptors) =
        [[{ poseId := 0, descriptor := { rows := 1, cols := 2, data := [7, 8] } }]] ∧
      descriptorReads { rows := 1, cols := 2, data := [7, 8] } = [(0, 0), (1, 0)] ∧
      (CvMat.mk 1 2 [7, 8]).at 0 1 = some 8 ∧
      (CvMat.mk 1 2 [7, 8]).at 1 0 = none ∧
      described.save2file = none ∧
      dumpDescriptor { poseId := 0, descriptor := { rows := 2, cols := 2, data := [1, 2, 3, 4] } } =
        some { poseId := 0, cols := 2, rows := 2, values := [1, 2, 3, 4] } := by
  decide


/-! ## Landmark ids as indices -/

/-- C23: in every state reached from a fresh map, the concatenation of the live
landmark vector and `features2add` has at position `k` a landmark with id
`FATURES_START_ID + k`, and `featureIdNo` is `FATURES_START_ID` plus the length of
that concatenation.  Consequently the index `id - FATURES_START_ID` computed by
`addMeasurements` and `getFeaturePosition` for the id of such a landmark is `k`:
when the landmark is in the live map the lookup is in bounds and hits it, and when
it is still staged in `features2add` the lookup is outside the live vector. -/
theorem landmark_id_is_start_plus_index (FATURES_START_ID : Nat)
    (sensorModel : DepthSensorModel) (config : Config) (calls : List Call) (s : FeaturesMap)
    (hrun : (FeaturesMap.new FATURES_START_ID config).run FATURES_START_ID sensorModel calls =
      some s) :
    s.featureIdNo = FATURES_START_ID +
        (s.featuresMapFrontend ++ s.bufferMapFrontend.features2add).length ∧
      ∀ (k : Nat) (f : MapFeature),
        (s.featuresMapFrontend ++ s.bufferMapFrontend.features2add)[k]? = some f →
          f.id = FATURES_START_ID + k ∧ featureIndex FATURES_START_ID f.id = some k ∧
          (k < s.featuresMapFrontend.length →
            s.featuresMapFrontend[k]? = some f ∧
              s.getFeaturePosition FATURES_START_ID f.id = some f.position ∧
              ∀ (p : Nat) (it : MapFeature), it.id = f.id →
                ∃ s1, addMeasurementsBody FATURES_START_ID sensorModel p s it = some s1) ∧
          (s.featuresMapFrontend.length ≤ k →
            s.featuresMapFrontend[k]? = none ∧
              s.getFeaturePosition FATURES_START_ID f.id = none ∧
              ∀ (p : Nat) (it : MapFeature), it.id = f.id →
                addMeasurementsBody FATURES_START_ID sensorModel p s it = none) := by
  have hinv := FeaturesMap.run_idsConsecutive FATURES_START_ID sensorModel config calls s hrun
  obtain ⟨hids, hno⟩ := hinv
  have hlen : s.allIds.length =
      (s.featuresMapFrontend ++ s.bufferMapFrontend.features2add).length := by
    simp [FeaturesMap.allIds]
  refine ⟨by rw [hno, hlen], ?_⟩
  intro k f hk
  have hklt : k < (s.featuresMapFrontend ++ s.bufferMapFrontend.features2add).length :=
    (List.getElem?_eq_some_iff.mp hk).1
  have hid : f.id = FATURES_START_ID + k := by
    have h1 : s.allIds[k]? = some f.id := by
      unfold FeaturesMap.allIds
      rw [List.getElem?_map, hk]
      rfl
    rw [hids, List.getElem?_range' _ _ (by rw [hlen]; exact hklt)] at h1
    simp only [Option.some.injEq, one_mul] at h1
    exact h1.symm
  have hidx : featureIndex FATURES_START_ID f.id = some k := by
    unfold featureIndex
    rw [hid, if_neg (by omega)]
    simp
  refine ⟨hid, hidx, ?_, ?_⟩
  · intro hlive
    have hf : s.featuresMapFrontend[k]? = some f := by
      rw [List.getElem?_append_left hlive] at hk
      exact hk
    refine ⟨hf, ?_, ?_⟩
    · simp only [FeaturesMap.getFeaturePosition, hidx, hf, Option.map_some']
    · intro p it hit
      simp only [addMeasurementsBody, hit, hidx, hf]
      exact ⟨_, rfl⟩
  · intro hstaged
    have hf : s.featuresMapFrontend[k]? = none := List.getElem?_eq_none_iff.mpr hstaged
    refine ⟨hf, ?_, ?_⟩
    · simp only [FeaturesMap.getFeaturePosition, hidx, hf, Option.map_none']
    · intro p it hit
      simp only [addMeasurementsBody, hit, hidx, hf]

/-- C23 at a concrete state: the landmark at position 1 of the concatenation is still
staged in `features2add`. -/
theorem landmark_id_is_start_plus_index_example :
    ((FeaturesMap.new sampleStartId sampleConfig).run sampleStartId sampleSensor
        drainedAndStagedCalls = some drainedAndStaged ∧
      (drainedAndStaged.featuresMapFrontend ++
        drainedAndStaged.bufferMapFrontend.features2add)[1]? =
          some (MapFeature.mk (sampleStartId + 1) 1 2 { x := 0, y := 0, z := -1 } [0] []) ∧
      drainedAndStaged.featuresMapFrontend.length ≤ 1) ∧
    (drainedAndStaged.featuresMapFrontend[1]? = none ∧
      drainedAndStaged.getFeaturePosition sampleStartId (sampleStartId + 1) = none ∧
      ∀ (p : Nat) (it : MapFeature), it.id = sampleStartId + 1 →
        addMeasurementsBody sampleStartId sampleSensor p drainedAndStaged it = none) :=
  ⟨⟨by decide, by decide, by decide⟩,
    ((landmark_id_is_start_plus_index sampleStartId sampleSensor sampleConfig
      drainedAndStagedCalls drainedAndStaged (by decide)).2 1
      (MapFeature.mk (sampleStartId + 1) 1 2 { x := 0, y := 0, z := -1 } [0] [])
      (by decide)).2.2.2 (by decide)⟩


/-! ## In-bounds reads of the sensor pose -/

section SensorPoseBounds

variable (FATURES_START_ID : Nat) (sensorModel : DepthSensorModel)

theorem foldl_max_lt_or_zero (l : List Nat) (a n : Nat) (hl : ∀ x ∈ l, x < n)
    (ha : a < n ∨ a = 0) : l.foldl max a < n ∨ l.foldl max a = 0 := by
  induction l generalizing a with
  | nil => exact ha
  | cons x rest ih =>
    rw [List.foldl_cons]
    have hx := hl x (List.mem_cons_self _ _)
    have hmax : max a x < n := by
      rcases ha with ha | ha
      · exact Nat.max_lt.mpr ⟨ha, hx⟩
      · rw [ha]
        exact Nat.max_lt.mpr ⟨by omega, hx⟩
    exact ih (max a x) (fun y hy => hl y (List.mem_cons_of_mem _ hy)) (Or.inl hmax)

/-- When every snapshot names only existing trajectory entries, the vertexId of an
entry stays its index and `lastOptimizedPose` stays below the trajectory length
(or at 0 while the trajectory is empty). -/
theorem FeaturesMap.run_lastOptimizedPose (calls : List Call) (s s1 : FeaturesMap)
    (hids : s.camTrajectory.map (fun v => v.vertexId) = List.range s.camTrajectory.length)
    (hlast : s.lastOptimizedPose < s.camTrajectory.length ∨ s.lastOptimizedPose = 0)
    (hknown : s.snapshotsKnown FATURES_START_ID sensorModel calls = true)
    (hrun : s.run FATURES_START_ID sensorModel calls = some s1) :
    s1.camTrajectory.map (fun v => v.vertexId) = List.range s1.camTrajectory.length ∧
      (s1.lastOptimizedPose < s1.camTrajectory.length ∨ s1.lastOptimizedPose = 0) := by
  induction calls generalizing s with
  | nil =>
    simp only [FeaturesMap.run, List.foldlM_nil] at hrun
    cases hrun
    exact ⟨hids, hlast⟩
  | cons c rest ih =>
    simp only [FeaturesMap.run, List.foldlM_cons] at hrun
    cases hc : s.call FATURES_START_ID sensorModel c with
    | none => rw [hc] at hrun; cases hrun
    | some s2 =>
      rw [hc] at hrun
      simp only [FeaturesMap.snapshotsKnown, hc, Bool.and_eq_true] at hknown
      obtain ⟨hsnap, hrestKnown⟩ := hknown
      by_cases hp : ∃ dT t image depthImage, c = .addNewPose dT t image depthImage
      · obtain ⟨dT, t, image, depthImage, rfl⟩ := hp
        simp only [FeaturesMap.call, Option.some.injEq] at hc
        subst hc
        apply ih _ _ _ hrestKnown hrun
        · unfold FeaturesMap.addNewPose
          split <;> simp [hids, List.range_succ]
        · have hlen : (s.addNewPose dT t image depthImage).1.camTrajectory.length =
              s.camTrajectory.length + 1 := by
            unfold FeaturesMap.addNewPose
            split <;> simp
          have hlo : (s.addNewPose dT t image depthImage).1.lastOptimizedPose =
              s.lastOptimizedPose := by
            unfold FeaturesMap.addNewPose
            split <;> rfl
          rw [hlen, hlo]
          omega
      · have hne : ∀ dT t image depthImage, c ≠ .addNewPose dT t image depthImage :=
          fun dT t image depthImage e => hp ⟨dT, t, image, depthImage, e⟩
        cases hopt : c.appliesPoses with
        | false =>
          obtain ⟨h1, _, h3⟩ :=
            FeaturesMap.call_trajectory FATURES_START_ID sensorModel s s2 c hc hne hopt
          apply ih s2 _ _ hrestKnown hrun
          · rw [h1]
            exact hids
          · rw [h1, h3]
            exact hlast
        | true =>
          cases c with
          | updateCamTrajectory poses =>
            simp only [FeaturesMap.call, Option.some.injEq] at hc
            subst hc
            have hbound : ∀ x ∈ poses.map (fun p => p.vertexId), x < s.camTrajectory.length := by
              intro x hx
              obtain ⟨p, hp1, rfl⟩ := List.mem_map.mp hx
              simp only [List.all_eq_true, List.any_eq_true, beq_iff_eq] at hsnap
              obtain ⟨v, hv, hvp⟩ := hsnap p hp1
              have hmem : v.vertexId ∈ s.camTrajectory.map (fun v => v.vertexId) :=
                List.mem_map_of_mem _ hv
              rw [hids] at hmem
              rw [← hvp]
              exact List.mem_range.mp hmem
            apply ih _ _ _ hrestKnown hrun
            · unfold FeaturesMap.updateCamTrajectory
              rw [foldl_updatePose_vertexIds, (foldl_updatePose_lengths poses s).1]
              exact hids
            · unfold FeaturesMap.updateCamTrajectory
              rw [foldl_updatePose_lastOptimizedPose, (foldl_updatePose_lengths poses s).1]
              exact foldl_max_lt_or_zero _ _ _ hbound hlast
          | _ => simp [Call.appliesPoses] at hopt

end SensorPoseBounds

/-- On an empty trajectory there is no pose to read: `getSensorPose` reads outside the
trajectory for every argument. -/
theorem FeaturesMap.getSensorPose_of_empty (s : FeaturesMap) (poseId : Int)
    (h : s.camTrajectory = []) : s.getSensorPose poseId = none := by
  unfold FeaturesMap.getSensorPose
  simp only [h, at?]
  split
  · split <;> simp
  · simp

/-- C24: in every state reached from a fresh map by calls among which every
`updateCamTrajectory` hands over a snapshot with vertexIds of existing trajectory
entries only, `odoMeasurements` is as long as the trajectory, and once the
trajectory is non-empty `lastOptimizedPose` is smaller than the trajectory length.
Therefore, once the trajectory is non-empty, `getSensorPose(poseId)` for a negative
`poseId` or a `poseId` below the trajectory length reads the trajectory inside its
bounds and returns a pose; its loop over the odometry sequence starts at
`lastOptimizedPose + 1`, which is at most the length of the sequence, and stops at
the end of the sequence. -/
theorem getSensorPose_reads_in_bounds (FATURES_START_ID : Nat)
    (sensorModel : DepthSensorModel) (config : Config) (calls : List Call) (s : FeaturesMap)
    (hrun : (FeaturesMap.new FATURES_START_ID config).run FATURES_START_ID sensorModel calls =
      some s)
    (hknown : (FeaturesMap.new FATURES_START_ID config).snapshotsKnown FATURES_START_ID
      sensorModel calls = true) :
    s.odoMeasurements.length = s.camTrajectory.length ∧
      (s.camTrajectory ≠ [] →
        s.lastOptimizedPose < s.camTrajectory.length ∧
          s.lastOptimizedPose + 1 ≤ s.odoMeasurements.length ∧
          ∀ poseId : Int, poseId < s.camTrajectory.length →
            ∃ pose, s.getSensorPose poseId = some pose) := by
  have hodo := FeaturesMap.run_odoMeasurements_length FATURES_START_ID sensorModel config calls
    s hrun
  obtain ⟨_, hlast⟩ := FeaturesMap.run_lastOptimizedPose FATURES_START_ID sensorModel calls
    (FeaturesMap.new FATURES_START_ID config) s (by simp [FeaturesMap.new])
    (Or.inr rfl) hknown hrun
  refine ⟨hodo, ?_⟩
  intro hne
  have hpos : 0 < s.camTrajectory.length := List.length_pos.mpr hne
  have hlt : s.lastOptimizedPose < s.camTrajectory.length := by omega
  refine ⟨hlt, by omega, ?_⟩
  intro poseId hpose
  have key : ∀ q : Int, 0 ≤ q → q < s.camTrajectory.length →
      ∃ pose, (if q < (s.lastOptimizedPose : Int) then
          (at? s.camTrajectory q).map (fun v => v.pose)
        else
          match s.camTrajectory[s.lastOptimizedPose]? with
          | none => none
          | some v =>
            some ((s.odoMeasurements.drop (s.lastOptimizedPose + 1)).foldl
              (fun pose odo => pose * odo) v.pose)) = some pose := by
    intro q h0 h1
    by_cases hb : q < (s.lastOptimizedPose : Int)
    · have hq : q.toNat < s.camTrajectory.length := by omega
      rw [if_pos hb]
      unfold at?
      rw [if_neg (not_lt.mpr h0), List.getElem?_eq_getElem hq]
      exact ⟨_, rfl⟩
    · rw [if_neg hb, List.getElem?_eq_getElem hlt]
      exact ⟨_, rfl⟩
  exact key (if poseId < 0 then (s.camTrajectory.length : Int) - 1 else poseId)
    (by split <;> omega) (by split <;> omega)

/-- C24 at a concrete run: three poses and a snapshot for pose 1; the sensor pose is
read for pose 2 and for the last pose. -/
theorem getSensorPose_reads_in_bounds_example :
    ((FeaturesMap.new sampleStartId sampleConfig).run sampleStartId sampleSensor
        optimizedCalls = some threePosesOptimized ∧
      (FeaturesMap.new sampleStartId sampleConfig).snapshotsKnown sampleStartId sampleSensor
        optimizedCalls = true ∧
      threePosesOptimized.camTrajectory ≠ [] ∧
      (2 : Int) < threePosesOptimized.camTrajectory.length) ∧
    threePosesOptimized.getSensorPose (-1) = some (translate 11 0 0) ∧
    ∃ pose, threePosesOptimized.getSensorPose 2 = some pose :=
  ⟨⟨by decide, by decide, by decide, by decide⟩, by decide,
    ((getSensorPose_reads_in_bounds sampleStartId sampleSensor sampleConfig optimizedCalls
      threePosesOptimized (by decide) (by decide)).2 (by decide)).2.2 2 (by decide)⟩


end PUTSLAM
